import Mathlib

/-!
A verification development for the GNEX GYM billing/ledger core.

The TypeScript source keeps all state in in-memory collections that are
rewritten wholesale on every mutation; each ledger operation is a pure
transformation of a list, so it embeds directly as a Lean function on
lists.  Monetary amounts (JS `number`) are modelled as rationals, calendar
dates (stored as `YYYY-MM-DD` strings round-tripped through
`parseDate`/`formatToYMD`) as a year/month/day structure with the
ECMAScript `Date` normalisation semantics, and optional TS fields as
`Option`.  Effectful identifiers (`Date.now()`-based ids, "today") are
threaded as explicit parameters.  Append-only history logs are modelled
with entry kind and title; the human-readable detail strings
(`toLocaleDateString` renderings, interpolated amounts) are elided, as is
the browser `alert`, which is modelled as a returned refusal flag.
-/

set_option maxRecDepth 40000
set_option linter.unusedVariables false

namespace GnexGym

/-! ## Calendar dates (src/utils/dateUtils.ts)

`JSDate` models an ECMAScript `Date` at day granularity (the ledger only
ever compares and stores dates with the time zeroed out).  `mkDate y m0 d`
models `new Date(y, m0, d)` with its month/day normalisation: out-of-range
months shift the year, out-of-range days roll into adjacent months. -/

structure JSDate where
  y : Int
  m : Nat
  d : Nat
deriving DecidableEq

def isLeap (y : Int) : Bool :=
  (y % 4 == 0 && y % 100 != 0) || y % 400 == 0

def daysInMonth (y : Int) (m : Nat) : Nat :=
  if m = 2 then (if isLeap y then 29 else 28)
  else if m = 4 ∨ m = 6 ∨ m = 9 ∨ m = 11 then 30
  else 31

def nextDay (x : JSDate) : JSDate :=
  if x.d < daysInMonth x.y x.m then ⟨x.y, x.m, x.d + 1⟩
  else if x.m < 12 then ⟨x.y, x.m + 1, 1⟩
  else ⟨x.y + 1, 1, 1⟩

def prevDay (x : JSDate) : JSDate :=
  if 1 < x.d then ⟨x.y, x.m, x.d - 1⟩
  else if 1 < x.m then ⟨x.y, x.m - 1, daysInMonth x.y (x.m - 1)⟩
  else ⟨x.y - 1, 12, 31⟩

/-- `new Date(y, m0, d)` with `m0` 0-indexed: normalise the month into
`1..12` (shifting the year), then walk the (possibly out-of-range) day
into a real calendar day. -/
def mkDate (y m0 d : Int) : JSDate :=
  if 1 ≤ d then nextDay^[(d - 1).toNat] ⟨y + m0 / 12, (m0 % 12).toNat + 1, 1⟩
  else prevDay^[(1 - d).toNat] ⟨y + m0 / 12, (m0 % 12).toNat + 1, 1⟩

/-- `addMonths` from dateUtils: `setMonth(getMonth() + k)` keeps the
day-of-month and lets `Date` normalise. -/
def addMonths (x : JSDate) (k : Int) : JSDate :=
  mkDate x.y ((x.m : Int) - 1 + k) (x.d : Int)

/-- `addDays` from dateUtils: `setDate(getDate() + k)`. -/
def addDays (x : JSDate) (k : Int) : JSDate :=
  mkDate x.y ((x.m : Int) - 1) ((x.d : Int) + k)

/-- `addYear` from dateUtils: `setFullYear(getFullYear() + 1)`. -/
def addYear (x : JSDate) : JSDate :=
  mkDate (x.y + 1) ((x.m : Int) - 1) (x.d : Int)

/-- Date-only comparison `a <= b` (both sides have the time zeroed). -/
def dateLE (a b : JSDate) : Bool :=
  decide (a.y < b.y ∨ (a.y = b.y ∧ (a.m < b.m ∨ (a.m = b.m ∧ a.d ≤ b.d))))

/-- Date-only strict comparison `a < b`. -/
def dateLT (a b : JSDate) : Bool :=
  decide (a.y < b.y ∨ (a.y = b.y ∧ (a.m < b.m ∨ (a.m = b.m ∧ a.d < b.d))))

/-- `isPastOrToday` from dateUtils, on an already-parsed optional date
(a missing or unparsable date yields `false`). -/
def isPastOrToday (today : JSDate) (x : Option JSDate) : Bool :=
  match x with
  | none => false
  | some d => dateLE d today

/-! ### parseDate (src/utils/dateUtils.ts, lines 7-57)

`parseDate` splits on `-`/`/`, `parseInt`s the three components,
disambiguates by which component exceeds 1000, builds
`new Date(year, month-1, day)` and accepts it only if no component was
normalised away (the anti-rollover check, plus `isNaN` for dates outside
the representable `Date` range, approximated here at year granularity).
Strings the manual path does not accept fall through to the host's
generic `new Date(string)` parser, which is outside this repository; it
is modelled as an explicit function parameter `fb`, year-filtered to
`(1900, 2100)` exactly as in the source. -/

def jsParseIntAux : List Char → Nat → Nat
  | [], acc => acc
  | c :: cs, acc => if c.isDigit then jsParseIntAux cs (acc * 10 + (c.toNat - 48)) else acc

/-- `parseInt(s, 10)`: skip leading whitespace, optional sign, then a
maximal run of leading digits; `NaN` (here `none`) if there is none. -/
def jsParseInt (s : String) : Option Int :=
  let t := s.data.dropWhile (fun c => c.isWhitespace)
  let sign : Int := if t.head? = some '-' then -1 else 1
  let t2 := if t.head? = some '-' ∨ t.head? = some '+' then t.tail else t
  match t2 with
  | [] => none
  | c :: _ => if c.isDigit then some (sign * (jsParseIntAux t2 0 : Int)) else none

def splitDateComponents (t : String) : Option (Int × Int × Int) :=
  match t.split (fun c => c = '-' || c = '/') with
  | [s1, s2, s3] =>
    match jsParseInt s1, jsParseInt s2, jsParseInt s3 with
    | some p1, some p2, some p3 => some (p1, p2, p3)
    | _, _, _ => none
  | _ => none

/-- The `!isNaN(manualDate.getTime())` check: ECMAScript `Date` covers
about years -271821..275760; approximated at year granularity (every
date the claims touch has a 4-digit year, far inside the band). -/
def jsDateRangeOk (x : JSDate) : Bool :=
  decide (-271820 ≤ x.y ∧ x.y ≤ 275759)

/-- The year/month/day disambiguation: the first component above 1000 is
the 4-digit year (`YYYY-MM-DD` wins over `DD-MM-YYYY`). -/
def pickYMD (p1 p2 p3 : Int) : Option (Int × Int × Int) :=
  if 1000 < p1 then some (p1, p2, p3)
  else if 1000 < p3 then some (p3, p2, p1)
  else none

/-- The `if (year && month && day)` truthiness guard followed by the
`new Date(year, month - 1, day)` anti-rollover round-trip check. -/
def validateYMD (y m d : Int) : Option JSDate :=
  if y ≠ 0 ∧ m ≠ 0 ∧ d ≠ 0 then
    let md := mkDate y (m - 1) d
    if jsDateRangeOk md ∧ md.y = y ∧ (md.m : Int) = m ∧ (md.d : Int) = d then
      some md
    else none
  else none

def parseDateManual (t : String) : Option JSDate :=
  match splitDateComponents t with
  | none => none
  | some (p1, p2, p3) =>
    match pickYMD p1 p2 p3 with
    | none => none
    | some (y, m, d) => validateYMD y m d

def parseDate (fb : String → Option JSDate) (s : String) : Option JSDate :=
  if s.trim = "" then none
  else
    match parseDateManual s.trim with
    | some d => some d
    | none =>
      match fb s.trim with
      | some fd => if 1900 < fd.y ∧ fd.y < 2100 then some fd else none
      | none => none

/-! ## Shared string helpers

`containsSub pat s` is JS `s.includes(pat)`; `matchSessionCount` is the
first match of the regex `(\d+)\s*SESSION/i` (a maximal leading digit run
followed by optional whitespace and `session`, scanned left to right). -/

def strStartsWith : List Char → List Char → Bool
  | [], _ => true
  | _ :: _, [] => false
  | p :: ps, c :: cs => p == c && strStartsWith ps cs

def containsSubAux (p : List Char) : List Char → Bool
  | [] => strStartsWith p []
  | c :: cs => strStartsWith p (c :: cs) || containsSubAux p cs

def containsSub (pat s : String) : Bool :=
  containsSubAux pat.data s.data

def takeDigitsAux : List Char → Nat → Nat × List Char
  | [], acc => (acc, [])
  | c :: cs, acc =>
    if c.isDigit then takeDigitsAux cs (acc * 10 + (c.toNat - 48)) else (acc, c :: cs)

def matchSessionCountAux : List Char → Option Nat
  | [] => none
  | c :: cs =>
    if c.isDigit then
      let (n, rest) := takeDigitsAux (c :: cs) 0
      if strStartsWith "session".data (rest.dropWhile (fun x => x.isWhitespace)) then some n
      else matchSessionCountAux cs
    else matchSessionCountAux cs

def matchSessionCount (s : String) : Option Nat :=
  matchSessionCountAux s.toLower.data

/-! ## Data model (src/unnamed/part_009: types)

Monetary `number` fields are rationals; optional TS fields are `Option`.
History entries keep their kind and title; timestamps and the
interpolated human-readable detail strings are elided. -/

inductive HistoryKind
  | statusChange
  | payment
  | sessionUpdate
  | note
deriving DecidableEq

structure HistoryEntry where
  kind : HistoryKind
  title : String
deriving DecidableEq

inductive PlanType
  | member
  | walkin
  | coach
  | gymClass
deriving DecidableEq

structure PricePlan where
  id : String := ""
  name : String := ""
  amount : ℚ := 0
  type : PlanType := PlanType.member
deriving DecidableEq

structure PaymentDetails where
  plan : String := ""
  amount : ℚ := 0
deriving DecidableEq

structure LineItem where
  itemId : String := ""
  productId : String := ""
  name : String := ""
  quantity : ℚ := 1
  price : ℚ := 0
deriving DecidableEq

inductive RecStatus
  | pending
  | confirmed
  | cancelled
deriving DecidableEq

inductive PendingKind
  | payment
  | unfreeze
  | checkin
  | checkout
deriving DecidableEq

inductive ClientType
  | member
  | walkin
deriving DecidableEq

structure CheckinRecord where
  id : String := ""
  timestamp : String := ""
  type : ClientType := ClientType.member
  name : String := ""
  gymNumber : Option String := none
  amountPaid : ℚ := 0
  status : RecStatus := RecStatus.pending
  needsCoach : Bool := false
  coachAssigned : Option String := none
  paymentDetails : Option PaymentDetails := none
  balance : ℚ := 0
  amountDue : ℚ := 0
  checkoutTimestamp : Option String := none
  cancellationReason : Option String := none
  pendingAction : Option PendingKind := none
  productsPurchased : List LineItem := []
  balanceDueDate : Option String := none
  walkinClientId : Option String := none
  isNewWalkin : Bool := false
  contactNumber : Option String := none
  className : Option String := none
  sessionPlanDetails : Option (String × Nat) := none
  carriedOverBalance : Option ℚ := none
  sessionCompleted : Bool := false
deriving DecidableEq

/-- The argument of `addCheckinRecord`: a `CheckinRecord` minus
`id`/`timestamp`, whose monetary fields the code treats as possibly
absent (`recordData.amountDue ?? ...`, `'amountDue' in recordData`). -/
structure CheckinDraft where
  type : ClientType := ClientType.member
  name : String := ""
  gymNumber : Option String := none
  amountPaid : Option ℚ := none
  status : RecStatus := RecStatus.pending
  needsCoach : Bool := false
  coachAssigned : Option String := none
  paymentDetails : Option PaymentDetails := none
  balance : Option ℚ := none
  amountDue : Option ℚ := none
  checkoutTimestamp : Option String := none
  cancellationReason : Option String := none
  pendingAction : Option PendingKind := none
  productsPurchased : List LineItem := []
  balanceDueDate : Option String := none
  walkinClientId : Option String := none
  isNewWalkin : Bool := false
  contactNumber : Option String := none
  className : Option String := none
  sessionPlanDetails : Option (String × Nat) := none
  carriedOverBalance : Option ℚ := none
  sessionCompleted : Bool := false
deriving DecidableEq

/-- The `updates?: Partial<Omit<CheckinRecord, 'id'>>` argument of
`confirmPendingRecord`: `none` models an absent key, `some v` a key set
to `v` (for TS-optional fields the overriding value is itself an
`Option`). -/
structure RecordUpdates where
  timestamp : Option String := none
  type : Option ClientType := none
  name : Option String := none
  gymNumber : Option (Option String) := none
  amountPaid : Option ℚ := none
  status : Option RecStatus := none
  needsCoach : Option Bool := none
  coachAssigned : Option (Option String) := none
  paymentDetails : Option (Option PaymentDetails) := none
  balance : Option ℚ := none
  amountDue : Option ℚ := none
  checkoutTimestamp : Option (Option String) := none
  cancellationReason : Option (Option String) := none
  pendingAction : Option (Option PendingKind) := none
  productsPurchased : Option (List LineItem) := none
  balanceDueDate : Option (Option String) := none
  walkinClientId : Option (Option String) := none
  isNewWalkin : Option Bool := none
  contactNumber : Option (Option String) := none
  className : Option (Option String) := none
  sessionPlanDetails : Option (Option (String × Nat)) := none
  carriedOverBalance : Option (Option ℚ) := none
  sessionCompleted : Option Bool := none
deriving DecidableEq

/-- The spread `{ ...r, ...updates }`. -/
def applyUpdates (r : CheckinRecord) (u : RecordUpdates) : CheckinRecord :=
  { r with
    timestamp := u.timestamp.getD r.timestamp
    type := u.type.getD r.type
    name := u.name.getD r.name
    gymNumber := u.gymNumber.getD r.gymNumber
    amountPaid := u.amountPaid.getD r.amountPaid
    status := u.status.getD r.status
    needsCoach := u.needsCoach.getD r.needsCoach
    coachAssigned := u.coachAssigned.getD r.coachAssigned
    paymentDetails := u.paymentDetails.getD r.paymentDetails
    balance := u.balance.getD r.balance
    amountDue := u.amountDue.getD r.amountDue
    checkoutTimestamp := u.checkoutTimestamp.getD r.checkoutTimestamp
    cancellationReason := u.cancellationReason.getD r.cancellationReason
    pendingAction := u.pendingAction.getD r.pendingAction
    productsPurchased := u.productsPurchased.getD r.productsPurchased
    balanceDueDate := u.balanceDueDate.getD r.balanceDueDate
    walkinClientId := u.walkinClientId.getD r.walkinClientId
    isNewWalkin := u.isNewWalkin.getD r.isNewWalkin
    contactNumber := u.contactNumber.getD r.contactNumber
    className := u.className.getD r.className
    sessionPlanDetails := u.sessionPlanDetails.getD r.sessionPlanDetails
    carriedOverBalance := u.carriedOverBalance.getD r.carriedOverBalance
    sessionCompleted := u.sessionCompleted.getD r.sessionCompleted }

/-! ## Check-in record ledger (src/hooks/useTasks.ts, `useCheckins`, lines 364-771)

Each operation rewrites the whole `checkinRecords` collection, so it is a
function `List CheckinRecord → List CheckinRecord` (paired with the
returned flag where the source reports one: the `alert` of
`confirmCheckout` and the `success` flag of `requestCheckoutByRecordId`).
Fresh `Date.now()`-based ids and timestamps are explicit parameters, and
the cross-ledger walk-in callbacks of `confirmPendingRecord` /
`addServicesToWalkinRecord` act on a different collection and are not
part of the record transformation modelled here (only the record fields
they set are). -/

/-- The client key of a draft: `gymNumber` for members, `walkinClientId`
for walk-ins. -/
def draftClientId (dr : CheckinDraft) : Option String :=
  match dr.type with
  | ClientType.member => dr.gymNumber
  | ClientType.walkin => dr.walkinClientId

def recordClientField (t : ClientType) (r : CheckinRecord) : Option String :=
  match t with
  | ClientType.member => r.gymNumber
  | ClientType.walkin => r.walkinClientId

/-- A prior record whose balance is carried over: same client, positive
balance, already closed out (`checkoutTimestamp` set). -/
def isCarrySource (dr : CheckinDraft) (r : CheckinRecord) : Bool :=
  match draftClientId dr with
  | none => false
  | some cid =>
    decide (recordClientField dr.type r = some cid) &&
    decide (0 < r.balance) && r.checkoutTimestamp.isSome

def carrySources (dr : CheckinDraft) (recs : List CheckinRecord) : List CheckinRecord :=
  recs.filter (isCarrySource dr)

/-- `totalPreviousBalance` of `addCheckinRecord`. -/
def carryOverSum (dr : CheckinDraft) (recs : List CheckinRecord) : ℚ :=
  ((carrySources dr recs).map CheckinRecord.balance).sum

/-- `recordData.amountDue ?? recordData.paymentDetails?.amount ?? 0`. -/
def derivedAmountDue (dr : CheckinDraft) : ℚ :=
  dr.amountDue.getD ((dr.paymentDetails.map PaymentDetails.amount).getD 0)

/-- `recordData.amountPaid ?? 0`. -/
def derivedAmountPaid (dr : CheckinDraft) : ℚ :=
  dr.amountPaid.getD 0

/-- `recordData.balance ?? (recordData.paymentDetails?.amount ?? 0) - (recordData.amountPaid ?? 0)`. -/
def derivedBalance (dr : CheckinDraft) : ℚ :=
  dr.balance.getD (((dr.paymentDetails.map PaymentDetails.amount).getD 0) - dr.amountPaid.getD 0)

/-- Stage 1 of `addCheckinRecord`: the base record built from the draft. -/
def baseRecordOf (newId now : String) (dr : CheckinDraft) : CheckinRecord :=
  { id := newId
    timestamp := now
    type := dr.type
    name := dr.name
    gymNumber := dr.gymNumber
    amountPaid := derivedAmountPaid dr
    status := dr.status
    needsCoach := dr.needsCoach
    coachAssigned := dr.coachAssigned
    paymentDetails := dr.paymentDetails
    balance := derivedBalance dr
    amountDue := derivedAmountDue dr
    checkoutTimestamp := dr.checkoutTimestamp
    cancellationReason := dr.cancellationReason
    pendingAction := dr.pendingAction
    productsPurchased := dr.productsPurchased
    balanceDueDate := dr.balanceDueDate
    walkinClientId := dr.walkinClientId
    isNewWalkin := dr.isNewWalkin
    contactNumber := dr.contactNumber
    className := dr.className
    sessionPlanDetails := dr.sessionPlanDetails
    carriedOverBalance := dr.carriedOverBalance
    sessionCompleted := dr.sessionCompleted }

/-- Stage 2 of `addCheckinRecord`: fold the carried-over balance into the
new record (the `(+₱... prev bal)` text appended to the payment-details
plan string is kept without the interpolated amount). -/
def withCarry (s : ℚ) (r : CheckinRecord) : CheckinRecord :=
  if 0 < s then
    { r with
      carriedOverBalance := some s
      amountDue := r.amountDue + s
      balance := r.balance + s
      paymentDetails := r.paymentDetails.map (fun pd => { pd with plan := pd.plan ++ " (+prev bal)" }) }
  else r

/-- Stage 3 of `addCheckinRecord`: a `Pending` draft with no explicit
`amountDue` key derives everything from `paymentDetails.amount` plus the
carried-over balance. -/
def stageThree (dr : CheckinDraft) (r : CheckinRecord) : CheckinRecord :=
  if r.status = RecStatus.pending ∧ dr.amountDue = none then
    { r with
      amountDue := ((r.paymentDetails.map PaymentDetails.amount).getD 0) + (r.carriedOverBalance.getD 0)
      amountPaid := 0
      balance := ((r.paymentDetails.map PaymentDetails.amount).getD 0) + (r.carriedOverBalance.getD 0) }
  else r

/-- `addCheckinRecord` (lines 388-465): build the new record in three
stages, then zero the balance of every prior record whose id was
collected as a carry-over source. -/
def addCheckinRecord (newId now : String) (dr : CheckinDraft) (recs : List CheckinRecord) : List CheckinRecord :=
  stageThree dr (withCarry (carryOverSum dr recs) (baseRecordOf newId now dr)) ::
    recs.map (fun r =>
      if r.id ∈ (carrySources dr recs).map CheckinRecord.id then { r with balance := 0 } else r)

/-- `confirmPendingRecord` (lines 467-513).  The walk-in side effects
(creating/updating the `WalkinClient`) touch a different collection; on
the record itself a brand-new walk-in gets the freshly created client id
`freshWalkinId`, the `isNewWalkin` flag is cleared, the status is
finalised to `Confirmed` and the pending-action marker removed. -/
def confirmPendingRecord (freshWalkinId : String) (id : String) (u : RecordUpdates)
    (recs : List CheckinRecord) : List CheckinRecord :=
  recs.map fun r =>
    if r.id = id then
      let upd := applyUpdates r u
      let upd2 :=
        if upd.isNewWalkin then
          { upd with
            walkinClientId := some (upd.walkinClientId.getD freshWalkinId)
            isNewWalkin := false }
        else upd
      { upd2 with status := RecStatus.confirmed, pendingAction := none }
    else r

/-- `assignCoachToRecord` (lines 515-519). -/
def assignCoachToRecord (recordId coachName : String) (recs : List CheckinRecord) : List CheckinRecord :=
  recs.map fun r => if r.id = recordId then { r with coachAssigned := some coachName } else r

/-- `cancelPendingRecord` (lines 521-523). -/
def cancelPendingRecord (id reason : String) (recs : List CheckinRecord) : List CheckinRecord :=
  recs.map fun r =>
    if r.id = id then { r with status := RecStatus.cancelled, cancellationReason := some reason } else r

/-- `confirmCheckout` (lines 525-546).  The returned flag is `true` when
the source fires the `alert` and leaves the collection untouched. -/
def confirmCheckout (now : String) (recordId : String) (balanceDueDate : Option String)
    (recs : List CheckinRecord) : List CheckinRecord × Bool :=
  let record? := recs.find? (fun r => decide (r.id = recordId))
  let refuse : Bool :=
    match record? with
    | some record =>
      decide (record.pendingAction = some PendingKind.checkout) &&
      decide (0 < record.balance) && balanceDueDate.isNone
    | none => false
  if refuse then (recs, true)
  else
    (recs.map fun r =>
      if r.id = recordId ∧ r.pendingAction = some PendingKind.checkout then
        { r with
          pendingAction := none
          checkoutTimestamp := some now
          balanceDueDate := balanceDueDate.orElse (fun _ => r.balanceDueDate) }
      else r, false)

/-- `cancelPendingCheckout` (lines 548-556). -/
def cancelPendingCheckout (recordId : String) (recs : List CheckinRecord) : List CheckinRecord :=
  recs.map fun r =>
    if r.id = recordId ∧ r.pendingAction = some PendingKind.checkout then
      { r with pendingAction := none }
    else r

/-- `addCheckoutRecord` (lines 558-575); the fresh
`item-${Date.now()}-${Math.random()}` ids are already attached to the
`products` argument here. -/
def addCheckoutRecord (recordId : String) (products : List LineItem) (total : ℚ)
    (recs : List CheckinRecord) : List CheckinRecord :=
  recs.map fun r =>
    if r.id = recordId then
      { r with
        productsPurchased := r.productsPurchased ++ products
        amountDue := r.amountDue + total
        balance := r.balance + total }
    else r

/-- `addPaymentToRecord` (lines 577-591). -/
def addPaymentToRecord (recordId : String) (paymentAmount : ℚ) (newBalanceDueDate : Option String)
    (recs : List CheckinRecord) : List CheckinRecord :=
  recs.map fun r =>
    if r.id = recordId then
      { r with
        amountPaid := r.amountPaid + paymentAmount
        balance := r.balance - paymentAmount
        balanceDueDate := if 0 < r.balance - paymentAmount then newBalanceDueDate else none }
    else r

/-- `processPayment` (lines 593-610). -/
def processPayment (recordId : String) (paymentAmount : ℚ) (settledProductIds : List String)
    (newBalanceDueDate : Option String) (recs : List CheckinRecord) : List CheckinRecord :=
  recs.map fun r =>
    if r.id = recordId then
      { r with
        amountPaid := r.amountPaid + paymentAmount
        balance := r.balance - paymentAmount
        productsPurchased := r.productsPurchased.filter (fun p => !(settledProductIds.contains p.productId))
        balanceDueDate := if 0 < r.balance - paymentAmount then newBalanceDueDate else none }
    else r

/-- `requestCheckoutByRecordId` (lines 612-624). -/
def requestCheckoutByRecordId (recordId : String) (recs : List CheckinRecord) : List CheckinRecord × Bool :=
  match recs.find? (fun r => decide (r.id = recordId)) with
  | some record =>
    if record.status = RecStatus.confirmed ∧ record.checkoutTimestamp = none ∧ record.pendingAction = none then
      (recs.map fun r => if r.id = recordId then { r with pendingAction := some PendingKind.checkout } else r,
        true)
    else (recs, false)
  | none => (recs, false)

/-- `addPlansToRecordTab` (lines 626-648); `mkItemId i` stands for the
fresh item id generated for the i-th added plan. -/
def addPlansToRecordTab (mkItemId : Nat → String) (recordId : String) (plans : List PricePlan)
    (recs : List CheckinRecord) : List CheckinRecord :=
  recs.map fun r =>
    if r.id = recordId then
      let totalAmount := (plans.map PricePlan.amount).sum
      let newProducts := plans.enum.map (fun ip =>
        { itemId := mkItemId ip.1
          productId := ip.2.id
          name := ip.2.name
          quantity := 1
          price := ip.2.amount : LineItem })
      { r with
        productsPurchased := r.productsPurchased ++ newProducts
        amountDue := r.amountDue + totalAmount
        balance := r.balance + totalAmount
        needsCoach := r.needsCoach || plans.any (fun p => decide (p.type = PlanType.coach)) }
    else r

/-- `removeItemFromRecord` (lines 650-669). -/
def removeItemFromRecord (recordId itemId : String) (recs : List CheckinRecord) : List CheckinRecord :=
  recs.map fun r =>
    if r.id = recordId then
      match r.productsPurchased.find? (fun p => decide (p.itemId = itemId)) with
      | none => r
      | some itemToRemove =>
        let priceToSubtract := itemToRemove.price * itemToRemove.quantity
        { r with
          productsPurchased := r.productsPurchased.filter (fun p => !(decide (p.itemId = itemId)))
          amountDue := r.amountDue - priceToSubtract
          balance := r.balance - priceToSubtract
          balanceDueDate := if 0 < r.balance - priceToSubtract then r.balanceDueDate else none }
    else r

/-- `[r.paymentDetails?.plan, planNames].filter(Boolean).join(' + ')`. -/
def joinPlanStrings (prev : Option PaymentDetails) (planNames : String) : String :=
  String.intercalate " + "
    (((match prev with | some pd => [pd.plan] | none => []) ++ [planNames]).filter (fun s => !(decide (s = ""))))

/-- `addPaymentsToRecord` (lines 671-697): a direct payment raises
`amountDue` and `amountPaid` together, leaving `balance` unchanged. -/
def addPaymentsToRecord (recordId : String) (plans : List PricePlan)
    (recs : List CheckinRecord) : List CheckinRecord :=
  recs.map fun r =>
    if r.id = recordId then
      let totalAmount := (plans.map PricePlan.amount).sum
      let planNames := String.intercalate " + " (plans.map (fun p => "Renewal: " ++ p.name))
      { r with
        paymentDetails := some
          { plan := joinPlanStrings r.paymentDetails planNames
            amount := ((r.paymentDetails.map PaymentDetails.amount).getD 0) + totalAmount }
        amountDue := r.amountDue + totalAmount
        amountPaid := r.amountPaid + totalAmount }
    else r

/-- `addPartialDuesPaymentToRecord` (lines 699-724): note that the
supplied `dueDate` is stored unconditionally. -/
def addPartialDuesPaymentToRecord (recordId : String) (plans : List PricePlan)
    (paymentAmount : ℚ) (dueDate : String) (recs : List CheckinRecord) : List CheckinRecord :=
  recs.map fun r =>
    if r.id = recordId then
      let totalDues := (plans.map PricePlan.amount).sum
      let planNames := String.intercalate " + " (plans.map (fun p => "Due: " ++ p.name))
      { r with
        paymentDetails := some
          { plan := joinPlanStrings r.paymentDetails planNames
            amount := ((r.paymentDetails.map PaymentDetails.amount).getD 0) + totalDues }
        amountDue := r.amountDue + totalDues
        amountPaid := r.amountPaid + paymentAmount
        balance := r.balance + totalDues - paymentAmount
        balanceDueDate := some dueDate }
    else r

/-- `addServicesToWalkinRecord` (lines 726-762); the
`updateWalkinClientSessionPlan` callback mutates the walk-in collection
and is not part of this record transformation. -/
def addServicesToWalkinRecord (mkItemId : Nat → String) (recordId : String) (plans : List PricePlan)
    (recs : List CheckinRecord) : List CheckinRecord :=
  recs.map fun r =>
    if r.id = recordId ∧ r.type = ClientType.walkin then
      let totalAmount := (plans.map PricePlan.amount).sum
      let newProducts := plans.enum.map (fun ip =>
        { itemId := mkItemId ip.1
          productId := ip.2.id
          name := ip.2.name
          quantity := 1
          price := ip.2.amount : LineItem })
      let hasCoachPlan := plans.any (fun p =>
        decide (p.type = PlanType.coach) || decide (p.type = PlanType.gymClass) ||
        containsSub "pt" p.name.toLower || containsSub "boxing" p.name.toLower ||
        containsSub "muaythai" p.name.toLower)
      let coachAssigned :=
        if plans.any (fun p => containsSub "taekwondo" p.name.toLower) then some "COACH RALPH"
        else r.coachAssigned
      { r with
        productsPurchased := r.productsPurchased ++ newProducts
        amountDue := r.amountDue + totalAmount
        balance := r.balance + totalAmount
        needsCoach := r.needsCoach || hasCoachPlan
        coachAssigned := coachAssigned
        className := ((plans.find? (fun p => decide (p.type = PlanType.gymClass))).map PricePlan.name).orElse (fun _ => r.className) }
    else r

/-- `markRecordSessionCompleted` (lines 764-768). -/
def markRecordSessionCompleted (recordId : String) (recs : List CheckinRecord) : List CheckinRecord :=
  recs.map fun r => if r.id = recordId then { r with sessionCompleted := true } else r

/-! ## Member ledger (src/unnamed/part_000, `useMembers`)

Member date fields are stored as `YYYY-MM-DD` strings in the source and
round-tripped through `parseDate`/`formatToYMD`; they are modelled as
parsed `Option JSDate` values directly.  `today` (`new Date()` with the
time zeroed) is an explicit parameter. -/

structure Member where
  id : String := ""
  name : String := ""
  status : String := "Active"
  membershipType : String := ""
  hasCoach : Bool := false
  coachName : Option String := none
  trainingType : Option String := none
  membershipStartDate : Option JSDate := none
  subscriptionStartDate : Option JSDate := none
  lastPaymentDate : Option JSDate := none
  dueDate : Option JSDate := none
  totalSessions : Option Nat := none
  sessionsUsed : Option Nat := none
  daysRemainingOnFreeze : Option Int := none
  sessionExpiryDate : Option JSDate := none
  membershipFeeLastPaid : Option JSDate := none
  membershipFeeDueDate : Option JSDate := none
  lockerStartDate : Option JSDate := none
  lockerDueDate : Option JSDate := none
  classId : Option String := none
  className : Option String := none
  history : List HistoryEntry := []
deriving DecidableEq

/-- `addHistoryEntry` (part_000 lines 7-23): prepend an entry. -/
def addHistoryEntry (m : Member) (k : HistoryKind) (title : String) : Member :=
  { m with history := { kind := k, title := title } :: m.history }

/-- `plan.type === 'coach' || (plan.type === 'class' && name.includes('session'))`. -/
def isSessionPlan (p : PricePlan) : Bool :=
  decide (p.type = PlanType.coach) ||
    (decide (p.type = PlanType.gymClass) && containsSub "session" p.name.toLower)

/-- The shared renewal cascade (part_000 lines 108-113 and 330-335): which
renewal keyword a plan name matches, in the source's test order. -/
inductive RenewKind
  | yearly
  | sixMonths
  | threeMonths
  | noMF
  | monthly
  | daily
deriving DecidableEq

def renewKindOf (nameLower : String) : Option RenewKind :=
  if containsSub "yearly" nameLower then some RenewKind.yearly
  else if containsSub "6 months" nameLower then some RenewKind.sixMonths
  else if containsSub "3 months" nameLower then some RenewKind.threeMonths
  else if containsSub "no mf" nameLower then some RenewKind.noMF
  else if containsSub "monthly" nameLower then some RenewKind.monthly
  else if containsSub "daily" nameLower then some RenewKind.daily
  else none

/-- The calendar interval each renewal keyword adds. -/
def applyRenewKind (k : RenewKind) (start : JSDate) : JSDate :=
  match k with
  | RenewKind.yearly => addYear start
  | RenewKind.sixMonths => addMonths start 6
  | RenewKind.threeMonths => addMonths start 3
  | RenewKind.noMF => addMonths start 1
  | RenewKind.monthly => addMonths start 1
  | RenewKind.daily => addDays start 1

def renewMembershipType (k : RenewKind) (cur : String) : String :=
  match k with
  | RenewKind.noMF => "NO MF"
  | _ => cur

/-- The training-type inference cascade of the session-plan branch. -/
def sessionTrainingType (nameLower : String) (um : Member) : Member :=
  if containsSub "boxing" nameLower then { um with trainingType := some "Boxing Training" }
  else if containsSub "muaythai" nameLower then { um with trainingType := some "Muaythai Training" }
  else if containsSub "taekwondo" nameLower then { um with trainingType := some "Taekwondo Training" }
  else if containsSub "pt -" nameLower then { um with trainingType := some "Loss Weight/Circuit Training" }
  else um

/-- The session-plan branch shared by `applyPaymentPlansToMember`
(lines 38-63) and `addPlansToMember` (lines 269-294): accumulate or reset
the session counters and push the expiry 3 months out. -/
def applySessionPlan (today : JSDate) (um0 : Member) (p : PricePlan) : Member :=
  let sessionsToAdd := (matchSessionCount p.name).getD 1
  let um := sessionTrainingType p.name.toLower { um0 with hasCoach := true }
  let remainingSessions : Int := (um.totalSessions.getD 0 : Int) - (um.sessionsUsed.getD 0 : Int)
  let sessionsExpired : Bool :=
    match um.sessionExpiryDate with
    | some e => dateLT e today
    | none => false
  let um2 :=
    if remainingSessions ≤ 0 ∨ sessionsExpired then
      { um with totalSessions := some sessionsToAdd, sessionsUsed := some 0 }
    else
      { um with totalSessions := some (um.totalSessions.getD 0 + sessionsToAdd) }
  { um2 with sessionExpiryDate := some (addMonths today 3) }

/-- The locker-rental branch (lines 65-77 and 296-307). -/
def applyLockerPlan (today : JSDate) (um : Member) : Member :=
  let startDate :=
    match um.lockerDueDate with
    | some dd => if dateLT today dd then dd else today
    | none => today
  { um with
    lockerStartDate := some (um.lockerStartDate.getD today)
    lockerDueDate := some (addMonths startDate 1) }

/-- The membership-fee branch (lines 78-90 and 309-320). -/
def applyFeePlan (today : JSDate) (um : Member) : Member :=
  let startDate :=
    match um.membershipFeeDueDate with
    | some dd => if dateLT today dd then dd else today
    | none => today
  { um with
    membershipFeeLastPaid := some today
    membershipFeeDueDate := some (addYear startDate) }

/-- The renewal tail shared by both plan-application functions: apply the
matched interval from `start` and stamp the membership fields. -/
def applyRenewal (today start : JSDate) (um : Member) (nameLower : String)
    (histKind : HistoryKind) (histTitle : String) : Member :=
  match renewKindOf nameLower with
  | none => um
  | some k =>
    addHistoryEntry
      { um with
        status := "Active"
        lastPaymentDate := some today
        subscriptionStartDate := some start
        dueDate := some (applyRenewKind k start)
        membershipType := renewMembershipType k um.membershipType }
      histKind histTitle

/-- One plan step of the pure `applyPaymentPlansToMember`
(part_000 lines 26-133); `nss` is the optional
`newSubscriptionStartDate`. -/
def applyPlanToMember (today : JSDate) (nss : Option JSDate) (um : Member) (p : PricePlan) : Member :=
  let nameLower := p.name.toLower
  if isSessionPlan p then
    addHistoryEntry (applySessionPlan today um p) HistoryKind.payment "Online Payment: Coach/Class Plan"
  else if containsSub "locker rental" nameLower then
    addHistoryEntry (applyLockerPlan today um) HistoryKind.payment "Online Payment: Locker"
  else if containsSub "membership fee" nameLower then
    addHistoryEntry (applyFeePlan today um) HistoryKind.payment "Online Payment: Membership Fee"
  else
    let isCurrentlyDue : Bool :=
      match um.dueDate with
      | none => true
      | some dd => dateLE dd today
    let start :=
      if isCurrentlyDue then
        match nss with
        | some sd => sd
        | none => today
      else um.dueDate.getD today
    applyRenewal today start um nameLower HistoryKind.payment "Online Payment: Renewal"

/-- `applyPaymentPlansToMember` (part_000 lines 26-133). -/
def applyPaymentPlansToMember (today : JSDate) (m : Member) (plans : List PricePlan)
    (nss : Option JSDate) : Member :=
  plans.foldl (applyPlanToMember today nss) m

/-- One plan step of `addPlansToMember` (part_000 lines 251-355); its
renewal start date is the existing due date when that lies strictly in
the future, else today (it takes no explicit start date). -/
def addPlansToMemberOne (today : JSDate) (asPayment : Bool) (um : Member) (p : PricePlan) : Member :=
  let nameLower := p.name.toLower
  let histKind := if asPayment then HistoryKind.payment else HistoryKind.note
  if isSessionPlan p then
    addHistoryEntry (applySessionPlan today um p) histKind
      (if asPayment then "Coach/Class Plan Purchased" else "Coach/Class Plan Added to Tab")
  else if containsSub "locker rental" nameLower then
    addHistoryEntry (applyLockerPlan today um) histKind
      (if asPayment then "Locker Rental Paid" else "Locker Added to Tab")
  else if containsSub "membership fee" nameLower then
    addHistoryEntry (applyFeePlan today um) histKind
      (if asPayment then "Membership Fee Paid" else "Fee Added to Tab")
  else
    let currentMainDueDate := um.dueDate.getD today
    let start := if dateLT today currentMainDueDate then currentMainDueDate else today
    applyRenewal today start um nameLower histKind
      (if asPayment then "Membership Renewed" else "Renewal Added to Tab")

/-- `addPlansToMember` (part_000 lines 251-355). -/
def addPlansToMember (today : JSDate) (memberId : String) (plans : List PricePlan)
    (asPayment : Bool) (members : List Member) : List Member :=
  members.map fun m =>
    if m.id = memberId then plans.foldl (addPlansToMemberOne today asPayment) m else m

/-- The history notes `updateMember` attaches on manual status / class
changes (part_000 lines 207-217). -/
def updateMemberHist (old updated : Member) : Member :=
  let mt :=
    if old.status.toLower ≠ updated.status.toLower then
      addHistoryEntry updated HistoryKind.statusChange "Status Updated"
    else updated
  if old.classId ≠ updated.classId then
    addHistoryEntry mt HistoryKind.statusChange "Class Changed"
  else mt

/-- `updateMember` (part_000 lines 202-227): the supplied member object
replaces the stored one verbatim (with history notes on status/class
changes), then any purchased plans are applied. -/
def updateMember (today : JSDate) (updated : Member) (purchasedPlans : List PricePlan)
    (nss : Option JSDate) (members : List Member) : List Member :=
  members.map fun m =>
    if m.id = updated.id then
      if purchasedPlans ≠ [] then
        applyPaymentPlansToMember today (updateMemberHist m updated) purchasedPlans nss
      else updateMemberHist m updated
    else m

/-- One element step of `useSession` (part_000 lines 233-249); the second
component is the assignment to the `success` flag (`none` = untouched). -/
def useSessionStep (memberId : String) (m : Member) : Member × Option Bool :=
  if m.id = memberId ∧ m.hasCoach then
    if m.sessionsUsed.getD 0 < m.totalSessions.getD 0 then
      (addHistoryEntry { m with sessionsUsed := some (m.sessionsUsed.getD 0 + 1) }
        HistoryKind.sessionUpdate "Session Used", some true)
    else (m, none)
  else (m, none)

/-- `useSession` (part_000 lines 233-249): map over the members; the
returned flag is the last assignment made inside the map (initially
`false`). -/
def useSession (memberId : String) (members : List Member) : List Member × Bool :=
  (members.map (fun m => (useSessionStep memberId m).1),
    (members.foldl
      (fun acc m =>
        match (useSessionStep memberId m).2 with
        | some b => some b
        | none => acc)
      (none : Option Bool)).getD false)

/-- `unfreezeMember` (part_000 lines 362-382). -/
def unfreezeMember (today : JSDate) (memberId : String) (members : List Member) : List Member :=
  members.map fun m =>
    if m.id = memberId ∧ m.status.toLower = "frozen" then
      let newDueDate :=
        match m.daysRemainingOnFreeze with
        | some k => if 0 < k then addDays today k else addDays today 30
        | none => addDays today 30
      addHistoryEntry
        { m with status := "Active", dueDate := some newDueDate, daysRemainingOnFreeze := some 0 }
        HistoryKind.statusChange "Account Unfrozen"
    else m

inductive MsgKind
  | success
  | error
  | info
deriving DecidableEq

/-- The branch body of `markSessionComplete` (part_000 lines 393-432),
computed on the found member: the optional new member state
(`finalMemberState`) and the message kind. -/
def markSessionBranch (today : JSDate) (m : Member) : Option Member × MsgKind :=
  if isPastOrToday today m.sessionExpiryDate then
    if m.status.toLower ≠ "inactive" then
      (some (addHistoryEntry
        { m with status := "Inactive", totalSessions := some 0, sessionsUsed := some 0 }
        HistoryKind.statusChange "Sessions Expired"), MsgKind.info)
    else (none, MsgKind.info)
  else if ¬ m.hasCoach ∨ m.totalSessions.getD 0 ≤ 0 then
    (none, MsgKind.error)
  else if m.totalSessions.getD 0 ≤ m.sessionsUsed.getD 0 then
    if m.status.toLower ≠ "sessions" then
      (some (addHistoryEntry { m with status := "Sessions" }
        HistoryKind.statusChange "Sessions Finished"), MsgKind.info)
    else (none, MsgKind.info)
  else
    let newSessionsUsed := m.sessionsUsed.getD 0 + 1
    let isLastSession := m.totalSessions.getD 0 ≤ newSessionsUsed
    let mt := addHistoryEntry { m with sessionsUsed := some newSessionsUsed }
      HistoryKind.sessionUpdate "Session Marked Complete"
    let mt :=
      if isLastSession then
        addHistoryEntry { mt with status := "Sessions" } HistoryKind.statusChange "Sessions Finished"
      else mt
    (some mt, MsgKind.success)

/-- Write back at the first index matching `p` (the source's
`findIndex` followed by `updatedMembers[memberIndex] = finalMemberState`). -/
def replaceFirst {α : Type} (p : α → Bool) (y : α) : List α → List α
  | [] => []
  | x :: xs => if p x then y :: xs else x :: replaceFirst p y xs

/-- `markSessionComplete` (part_000 lines 384-444). -/
def markSessionComplete (today : JSDate) (memberId : String) (members : List Member) :
    List Member × MsgKind :=
  match members.find? (fun m => decide (m.id = memberId)) with
  | none => (members, MsgKind.error)
  | some m =>
    match markSessionBranch today m with
    | (none, msg) => (members, msg)
    | (some m', msg) => (replaceFirst (fun x => decide (x.id = memberId)) m' members, msg)

/-! ## Walk-in client ledger (src/hooks/useTasks.ts, `useWalkinClients`, lines 136-273) -/

structure SessionPlan where
  name : String := ""
  total : Nat := 0
  used : Nat := 0
  lastSessionUsedDate : Option String := none
deriving DecidableEq

structure WalkinClient where
  id : String := ""
  name : String := ""
  contactNumber : String := ""
  lastVisit : String := ""
  sessionPlan : Option SessionPlan := none
  history : List HistoryEntry := []
deriving DecidableEq

def addHistoryEntryToClient (c : WalkinClient) (k : HistoryKind) (title : String) : WalkinClient :=
  { c with history := { kind := k, title := title } :: c.history }

/-- One element step of `useSessionForWalkinClient` (lines 226-257); the
second component is the assignment made to `result` (`none` =
untouched). -/
def useSessionWalkinStep (today cid : String) (c : WalkinClient) : WalkinClient × Option Bool :=
  if c.id = cid then
    match c.sessionPlan with
    | none => (c, some false)
    | some sp =>
      if sp.total ≤ sp.used then (c, some false)
      else
        let updatedPlan := { sp with used := sp.used + 1, lastSessionUsedDate := some today }
        (addHistoryEntryToClient { c with sessionPlan := some updatedPlan, lastVisit := today }
          HistoryKind.sessionUpdate "Session Used", some true)
  else (c, none)

/-- `useSessionForWalkinClient` (lines 226-257): map over the clients;
the returned success flag is the last `result` assignment made inside the
map (initially the default failure). -/
def useSessionForWalkinClient (today cid : String) (clients : List WalkinClient) :
    List WalkinClient × Bool :=
  (clients.map (fun c => (useSessionWalkinStep today cid c).1),
    (clients.foldl
      (fun acc c =>
        match (useSessionWalkinStep today cid c).2 with
        | some b => some b
        | none => acc)
      (none : Option Bool)).getD false)

/-! ## Generic list lemmas

All ledger collections are keyed by string ids that the source generates
from `Date.now()`; the theorems about id-keyed operations therefore carry
a `Nodup` hypothesis on the key column. -/

theorem mem_decomp_of_nodup {α β : Type} [DecidableEq β] (key : α → β) {l : List α} {r : α}
    (hnd : (l.map key).Nodup) (hr : r ∈ l) :
    ∃ l1 l2, l = l1 ++ r :: l2 ∧ (∀ x ∈ l1, key x ≠ key r) ∧ (∀ x ∈ l2, key x ≠ key r) := by
  obtain ⟨l1, l2, rfl⟩ := List.append_of_mem hr
  rw [List.map_append, List.nodup_append] at hnd
  obtain ⟨-, hnd2, hdisj⟩ := hnd
  refine ⟨l1, l2, rfl, ?_, ?_⟩
  · intro x hx hkey
    exact hdisj (List.mem_map_of_mem key hx) (by simp [hkey])
  · intro x hx hkey
    rw [List.map_cons, List.nodup_cons] at hnd2
    exact hnd2.1 (hkey ▸ List.mem_map_of_mem key hx)

theorem map_ite_decomp {α β : Type} [DecidableEq β] (key : α → β) (g : α → α) (tgt : β)
    (l1 l2 : List α) (r : α) (h1 : ∀ x ∈ l1, key x ≠ tgt) (h2 : ∀ x ∈ l2, key x ≠ tgt)
    (hr : key r = tgt) :
    (l1 ++ r :: l2).map (fun x => if key x = tgt then g x else x) = l1 ++ g r :: l2 := by
  rw [List.map_append, List.map_cons, if_pos hr]
  congr 1
  · conv_rhs => rw [← List.map_id l1]
    exact List.map_congr_left (fun x hx => if_neg (h1 x hx))
  · congr 1
    conv_rhs => rw [← List.map_id l2]
    exact List.map_congr_left (fun x hx => if_neg (h2 x hx))

theorem map_ite_id {α β : Type} [DecidableEq β] (key : α → β) (g : α → α) (tgt : β)
    (l : List α) (h : ∀ x ∈ l, key x ≠ tgt) :
    l.map (fun x => if key x = tgt then g x else x) = l := by
  conv_rhs => rw [← List.map_id l]
  exact List.map_congr_left (fun x hx => if_neg (h x hx))

theorem map_eq_self {α : Type} (f : α → α) (l : List α) (h : ∀ x ∈ l, f x = x) :
    l.map f = l := by
  induction l with
  | nil => rfl
  | cons a as ih =>
    rw [List.map_cons, h a (by simp), ih (fun x hx => h x (by simp [hx]))]

theorem map_ite_and_decomp {α β : Type} [DecidableEq β] (key : α → β) (P : α → Prop)
    [DecidablePred P] (g : α → α) (tgt : β) (l1 l2 : List α) (r : α)
    (h1 : ∀ x ∈ l1, key x ≠ tgt) (h2 : ∀ x ∈ l2, key x ≠ tgt)
    (hr : key r = tgt) (hPr : P r) :
    (l1 ++ r :: l2).map (fun x => if key x = tgt ∧ P x then g x else x) = l1 ++ g r :: l2 := by
  rw [List.map_append, List.map_cons, if_pos ⟨hr, hPr⟩,
    map_eq_self _ l1 (fun x hx => if_neg (fun hc => h1 x hx hc.1)),
    map_eq_self _ l2 (fun x hx => if_neg (fun hc => h2 x hx hc.1))]

theorem find_decomp {α β : Type} [DecidableEq β] (key : α → β) (tgt : β)
    (l1 l2 : List α) (r : α) (h1 : ∀ x ∈ l1, key x ≠ tgt) (hr : key r = tgt) :
    (l1 ++ r :: l2).find? (fun x => decide (key x = tgt)) = some r := by
  induction l1 with
  | nil => simp [hr]
  | cons a as ih =>
    rw [List.cons_append, List.find?_cons_of_neg _ (by simp [h1 a (by simp)])]
    exact ih (fun x hx => h1 x (by simp [hx]))

theorem find_none {α β : Type} [DecidableEq β] (key : α → β) (tgt : β)
    (l : List α) (h : ∀ x ∈ l, key x ≠ tgt) :
    l.find? (fun x => decide (key x = tgt)) = none := by
  induction l with
  | nil => rfl
  | cons a as ih =>
    rw [List.find?_cons_of_neg _ (by simp [h a (by simp)])]
    exact ih (fun x hx => h x (by simp [hx]))

theorem foldl_assign_keep {α : Type} (h : α → Option Bool) (l : List α) (acc : Option Bool)
    (hl : ∀ x ∈ l, h x = none) :
    l.foldl (fun a x => match h x with | some b => some b | none => a) acc = acc := by
  induction l generalizing acc with
  | nil => rfl
  | cons a as ih =>
    rw [List.foldl_cons, hl a (by simp)]
    exact ih acc (fun x hx => hl x (by simp [hx]))

theorem replaceFirst_decomp {α : Type} (p : α → Bool) (y : α) (l1 l2 : List α) (r : α)
    (h1 : ∀ x ∈ l1, p x = false) (hr : p r = true) :
    replaceFirst p y (l1 ++ r :: l2) = l1 ++ y :: l2 := by
  induction l1 with
  | nil => simp [replaceFirst, hr]
  | cons a as ih =>
    rw [List.cons_append, replaceFirst, if_neg (by simp [h1 a (by simp)]), List.cons_append]
    rw [ih (fun x hx => h1 x (by simp [hx]))]

/-! ## Claim C4: payments applied to a record -/

/-- A sample record matching the spec's worked example
(`amountDue=500, amountPaid=0, balance=500`). -/
def cRec4 : CheckinRecord :=
  { id := "rec-1", name := "G-0001", status := RecStatus.confirmed, amountDue := 500, amountPaid := 0, balance := 500 }

/-- Claim C4: for a payment `p` applied via `addPaymentToRecord` to the
record with the given id, with `0 < p ≤ balance`, the record afterwards
has `amountPaid` increased by `p` and `balance` decreased by `p`, the
supplied `newBalanceDueDate` is stored exactly when the resulting
balance is still positive (and cleared otherwise), and every other
record of the collection is unchanged. -/
theorem addPayment_correct (recordId : String) (p : ℚ) (dd : Option String)
    (recs : List CheckinRecord) (r : CheckinRecord)
    (hnd : (recs.map CheckinRecord.id).Nodup) (hr : r ∈ recs) (hid : r.id = recordId)
    (hp : 0 < p) (hpb : p ≤ r.balance) :
    ∃ l1 l2, recs = l1 ++ r :: l2 ∧
      addPaymentToRecord recordId p dd recs =
        l1 ++ { r with
                amountPaid := r.amountPaid + p
                balance := r.balance - p
                balanceDueDate := if 0 < r.balance - p then dd else none } :: l2 := by
  obtain ⟨l1, l2, rfl, h1, h2⟩ := mem_decomp_of_nodup CheckinRecord.id hnd hr
  refine ⟨l1, l2, rfl, ?_⟩
  rw [addPaymentToRecord]
  exact map_ite_decomp CheckinRecord.id _ recordId l1 l2 r
    (fun x hx => hid ▸ h1 x hx) (fun x hx => hid ▸ h2 x hx) hid

/-- The spec's worked example: a 300 payment with a due date against
`cRec4` leaves `amountPaid = 300`, `balance = 200` and stores the date. -/
theorem addPayment_correct_witness :
    ∃ l1 l2, [cRec4] = l1 ++ cRec4 :: l2 ∧
      addPaymentToRecord "rec-1" 300 (some "2024-03-01") [cRec4] =
        l1 ++ { cRec4 with
                amountPaid := cRec4.amountPaid + 300
                balance := cRec4.balance - 300
                balanceDueDate := if 0 < cRec4.balance - 300 then some "2024-03-01" else none } :: l2 :=
  addPayment_correct "rec-1" 300 (some "2024-03-01") [cRec4] cRec4
    (by with_unfolding_all decide) (by with_unfolding_all decide) rfl
    (by with_unfolding_all decide) (by with_unfolding_all decide)

/-! ## Claim C10: id-keyed operations on a missing record id -/

/-- A sample confirmed record used to instantiate hypotheses concretely. -/
def cRecW : CheckinRecord :=
  { id := "rec-9", name := "W", status := RecStatus.confirmed, amountDue := 40, amountPaid := 0, balance := 40 }

/-- Claim C10: every check-in ledger operation keyed by a record id,
invoked with an id matching no record, returns the collection exactly
unchanged and signals nothing (`confirmCheckout` does not fire its
refusal alert). -/
theorem missing_id_noop (recs : List CheckinRecord) (recordId : String)
    (h : ∀ r ∈ recs, r.id ≠ recordId) :
    (∀ fid u, confirmPendingRecord fid recordId u recs = recs)
    ∧ (∀ reason, cancelPendingRecord recordId reason recs = recs)
    ∧ (∀ now dd, confirmCheckout now recordId dd recs = (recs, false))
    ∧ cancelPendingCheckout recordId recs = recs
    ∧ (∀ products total, addCheckoutRecord recordId products total recs = recs)
    ∧ (∀ p dd, addPaymentToRecord recordId p dd recs = recs)
    ∧ (∀ p sp dd, processPayment recordId p sp dd recs = recs)
    ∧ (∀ mkItemId plans, addPlansToRecordTab mkItemId recordId plans recs = recs)
    ∧ (∀ itemId, removeItemFromRecord recordId itemId recs = recs)
    ∧ (∀ coachName, assignCoachToRecord recordId coachName recs = recs)
    ∧ markRecordSessionCompleted recordId recs = recs := by
  have hmap : ∀ (f : CheckinRecord → CheckinRecord),
      recs.map (fun r => if r.id = recordId then f r else r) = recs := by
    intro f
    conv_rhs => rw [← List.map_id recs]
    exact List.map_congr_left (fun x hx => if_neg (h x hx))
  have hmap2 : ∀ (P : CheckinRecord → Prop) (inst : DecidablePred P)
      (f : CheckinRecord → CheckinRecord),
      recs.map (fun r => if r.id = recordId ∧ P r then f r else r) = recs := by
    intro P inst f
    conv_rhs => rw [← List.map_id recs]
    exact List.map_congr_left (fun x hx => if_neg (fun hc => h x hx hc.1))
  have hfind : recs.find? (fun r => decide (r.id = recordId)) = none :=
    find_none CheckinRecord.id recordId recs h
  refine ⟨?_, ?_, ?_, ?_, ?_, ?_, ?_, ?_, ?_, ?_, ?_⟩
  · intro fid u
    exact hmap _
  · intro reason
    exact hmap _
  · intro now dd
    rw [confirmCheckout, hfind]
    simp only [if_neg Bool.false_ne_true]
    exact Prod.ext (hmap2 _ _ _) rfl
  · exact hmap2 _ _ _
  · intro products total
    exact hmap _
  · intro p dd
    exact hmap _
  · intro p sp dd
    exact hmap _
  · intro mkItemId plans
    exact hmap _
  · intro itemId
    exact hmap _
  · intro coachName
    exact hmap _
  · exact hmap _

/-- Instantiation of the missing-id no-op theorem on a concrete
one-record collection and an id matching nothing. -/
theorem missing_id_noop_witness :
    addPaymentToRecord "no-such-id" 25 none [cRecW] = [cRecW]
    ∧ confirmCheckout "T" "no-such-id" none [cRecW] = ([cRecW], false)
    ∧ removeItemFromRecord "no-such-id" "item-1" [cRecW] = [cRecW] := by
  have h := missing_id_noop [cRecW] "no-such-id" (by with_unfolding_all decide)
  exact ⟨h.2.2.2.2.2.1 25 none, h.2.2.1 "T" none, h.2.2.2.2.2.2.2.2.1 "item-1"⟩

/-! ## Claim C3: confirmCheckout

The claim quantifies over every record, but `confirmCheckout` only acts
on a record whose `pendingAction` is `checkout`: for any other record it
neither refuses (no alert) nor succeeds (no `checkoutTimestamp` is
stamped) — a silent no-op. -/

/-- A fully settled, confirmed record that has not requested checkout. -/
def cRec3 : CheckinRecord :=
  { id := "rec-3", name := "C", status := RecStatus.confirmed, amountDue := 100, amountPaid := 100, balance := 0 }

/-- Counterexample to claim C3 as stated: `cRec3` has `balance = 0` and
no pending checkout request, so by the claim `confirmCheckout` would
have to succeed and stamp `checkoutTimestamp`; the code leaves the
collection unchanged, stamps nothing, and signals no error. -/
theorem confirmCheckout_cex :
    cRec3.balance ≤ 0
    ∧ confirmCheckout "T" "rec-3" none [cRec3] = ([cRec3], false)
    ∧ ((confirmCheckout "T" "rec-3" none [cRec3]).1.map CheckinRecord.checkoutTimestamp) = [none] := by
  with_unfolding_all decide

/-- Evaluation of `confirmCheckout` once `find?` is resolved. -/
theorem confirmCheckout_found (now recordId : String) (dd : Option String)
    (recs : List CheckinRecord) (r : CheckinRecord)
    (hfind : recs.find? (fun x => decide (x.id = recordId)) = some r) :
    confirmCheckout now recordId dd recs =
      if (decide (r.pendingAction = some PendingKind.checkout) &&
          decide (0 < r.balance) && dd.isNone) = true then (recs, true)
      else (recs.map (fun x =>
        if x.id = recordId ∧ x.pendingAction = some PendingKind.checkout then
          { x with
            pendingAction := none
            checkoutTimestamp := some now
            balanceDueDate := dd.orElse (fun _ => x.balanceDueDate) }
        else x), false) := by
  rw [confirmCheckout, hfind]

/-- Claim C3 (amended): for the record with the given id *whose
`pendingAction` is `checkout`*, `confirmCheckout` refuses — collection
unchanged, error signalled — exactly when `balance > 0` and no
`balanceDueDate` is supplied; otherwise it succeeds, stamping
`checkoutTimestamp`, storing the supplied due date if given (keeping the
existing one otherwise) and clearing `pendingAction`, with all other
records unchanged.  A record not in the pending-checkout state is left
untouched with no error signalled. -/
theorem confirmCheckout_correct (now recordId : String) (dd : Option String)
    (recs : List CheckinRecord) (r : CheckinRecord)
    (hnd : (recs.map CheckinRecord.id).Nodup) (hr : r ∈ recs) (hid : r.id = recordId) :
    (r.pendingAction = some PendingKind.checkout → 0 < r.balance → dd = none →
      confirmCheckout now recordId dd recs = (recs, true))
    ∧ (r.pendingAction = some PendingKind.checkout → ¬ (0 < r.balance ∧ dd = none) →
      ∃ l1 l2, recs = l1 ++ r :: l2 ∧
        confirmCheckout now recordId dd recs =
          (l1 ++ { r with
                   pendingAction := none
                   checkoutTimestamp := some now
                   balanceDueDate := dd.orElse (fun _ => r.balanceDueDate) } :: l2, false))
    ∧ (r.pendingAction ≠ some PendingKind.checkout →
      confirmCheckout now recordId dd recs = (recs, false)) := by
  obtain ⟨l1, l2, rfl, h1, h2⟩ := mem_decomp_of_nodup CheckinRecord.id hnd hr
  have h1' : ∀ x ∈ l1, x.id ≠ recordId := fun x hx => hid ▸ h1 x hx
  have h2' : ∀ x ∈ l2, x.id ≠ recordId := fun x hx => hid ▸ h2 x hx
  have hfind : (l1 ++ r :: l2).find? (fun x => decide (x.id = recordId)) = some r :=
    find_decomp CheckinRecord.id recordId l1 l2 r h1' hid
  rw [confirmCheckout_found now recordId dd _ r hfind]
  refine ⟨?_, ?_, ?_⟩
  · intro hpend hbal hdd
    subst hdd
    rw [if_pos (by simp [hpend, hbal])]
  · intro hpend hnref
    have hrefuse : (decide (r.pendingAction = some PendingKind.checkout) &&
        decide (0 < r.balance) && dd.isNone) = false := by
      rcases Decidable.em (0 < r.balance) with hb | hb
      · cases dd with
        | none => exact absurd ⟨hb, rfl⟩ hnref
        | some v => simp
      · simp [hb]
    rw [if_neg (by rw [hrefuse]; exact Bool.false_ne_true)]
    refine ⟨l1, l2, rfl, Prod.ext ?_ rfl⟩
    exact map_ite_and_decomp CheckinRecord.id
      (fun x => x.pendingAction = some PendingKind.checkout) _ recordId l1 l2 r h1' h2' hid hpend
  · intro hpend
    rw [if_neg (by simp [hpend])]
    refine Prod.ext ?_ rfl
    refine map_eq_self _ _ (fun x hx =>
      if_neg (show ¬ (x.id = recordId ∧ x.pendingAction = some PendingKind.checkout) from
        fun hc => ?_))
    rcases List.mem_append.mp hx with hx1 | hx1
    · exact h1' x hx1 hc.1
    · rcases List.mem_cons.mp hx1 with rfl | hx2
      · exact hpend hc.2
      · exact h2' x hx2 hc.1

/-- Instantiation of the amended checkout contract: a pending-checkout
record with a positive balance and no supplied due date is refused and
the collection is untouched. -/
theorem confirmCheckout_correct_witness :
    confirmCheckout "T" "rec-9b" none
        [{ cRecW with id := "rec-9b", pendingAction := some PendingKind.checkout }] =
      ([{ cRecW with id := "rec-9b", pendingAction := some PendingKind.checkout }], true) :=
  (confirmCheckout_correct "T" "rec-9b" none
      [{ cRecW with id := "rec-9b", pendingAction := some PendingKind.checkout }]
      { cRecW with id := "rec-9b", pendingAction := some PendingKind.checkout }
      (by with_unfolding_all decide) (by with_unfolding_all decide) rfl).1
    rfl (by with_unfolding_all decide) rfl

/-! ## Claim C8: walk-in session consumption -/

theorem useSessionWalkinStep_miss (today cid : String) (x : WalkinClient) (h : x.id ≠ cid) :
    useSessionWalkinStep today cid x = (x, none) := by
  rw [useSessionWalkinStep, if_neg h]

/-- Evaluation of `useSessionForWalkinClient` when exactly one client
carries the target id. -/
theorem useSessionWalkin_eval (today cid : String) (l1 l2 : List WalkinClient) (c : WalkinClient)
    (h1 : ∀ x ∈ l1, x.id ≠ cid) (h2 : ∀ x ∈ l2, x.id ≠ cid) (hid : c.id = cid) :
    useSessionForWalkinClient today cid (l1 ++ c :: l2) =
      (l1 ++ (useSessionWalkinStep today cid c).1 :: l2,
        ((useSessionWalkinStep today cid c).2).getD false) := by
  unfold useSessionForWalkinClient
  refine Prod.ext ?_ ?_
  · rw [List.map_append, List.map_cons,
      map_eq_self _ l1 (fun x hx => by rw [useSessionWalkinStep_miss today cid x (h1 x hx)]),
      map_eq_self _ l2 (fun x hx => by rw [useSessionWalkinStep_miss today cid x (h2 x hx)])]
  · rw [List.foldl_append,
      foldl_assign_keep _ l1 none (fun x hx => by rw [useSessionWalkinStep_miss today cid x (h1 x hx)]),
      List.foldl_cons,
      foldl_assign_keep _ l2 _ (fun x hx => by rw [useSessionWalkinStep_miss today cid x (h2 x hx)])]
    cases hs : (useSessionWalkinStep today cid c).2 with
    | none => rfl
    | some b => rfl

/-- Claim C8: `useSessionForWalkinClient` fails — returning a failure
result and leaving the clients exactly unchanged — when the client with
the given id has no session plan or has `used >= total`; otherwise it
succeeds, incrementing `used` by exactly one and stamping
`lastSessionUsedDate` (plus the last-visit stamp and history entry the
source adds), with all other clients unchanged. -/
theorem useSession_walkin_correct (today cid : String) (cs : List WalkinClient) (c : WalkinClient)
    (hnd : (cs.map WalkinClient.id).Nodup) (hc : c ∈ cs) (hid : c.id = cid) :
    ((c.sessionPlan = none ∨ ∃ sp, c.sessionPlan = some sp ∧ sp.total ≤ sp.used) →
      useSessionForWalkinClient today cid cs = (cs, false))
    ∧ (∀ sp, c.sessionPlan = some sp → sp.used < sp.total →
      ∃ l1 l2, cs = l1 ++ c :: l2 ∧
        useSessionForWalkinClient today cid cs =
          (l1 ++ (addHistoryEntryToClient
            { c with
              sessionPlan := some { sp with used := sp.used + 1, lastSessionUsedDate := some today }
              lastVisit := today }
            HistoryKind.sessionUpdate "Session Used") :: l2, true)) := by
  obtain ⟨l1, l2, rfl, h1, h2⟩ := mem_decomp_of_nodup WalkinClient.id hnd hc
  have h1' : ∀ x ∈ l1, x.id ≠ cid := fun x hx => hid ▸ h1 x hx
  have h2' : ∀ x ∈ l2, x.id ≠ cid := fun x hx => hid ▸ h2 x hx
  have heval := useSessionWalkin_eval today cid l1 l2 c h1' h2' hid
  constructor
  · rintro (hnone | ⟨sp, hsp, hle⟩)
    · rw [heval, useSessionWalkinStep, if_pos hid, hnone]
      rfl
    · rw [heval, useSessionWalkinStep, if_pos hid, hsp]
      simp only [if_pos hle]
      rfl
  · intro sp hsp hlt
    have hnle : ¬ sp.total ≤ sp.used := by omega
    refine ⟨l1, l2, rfl, ?_⟩
    rw [heval, useSessionWalkinStep, if_pos hid, hsp]
    simp only [if_neg hnle]
    rfl

/-- The spec's worked example: a walk-in client with
`sessionPlan {total: 8, used: 8}` is refused and left unchanged. -/
def cWalkin : WalkinClient :=
  { id := "w1", name := "W", sessionPlan := some { name := "PT - 8 Sessions", total := 8, used := 8 } }

theorem useSession_walkin_correct_witness :
    useSessionForWalkinClient "2024-02-05" "w1" [cWalkin] = ([cWalkin], false) :=
  (useSession_walkin_correct "2024-02-05" "w1" [cWalkin] cWalkin
      (by with_unfolding_all decide) (by with_unfolding_all decide) rfl).1
    (Or.inr ⟨{ name := "PT - 8 Sessions", total := 8, used := 8 }, rfl, le_refl 8⟩)

/-! ## Claim C5: no settled record carries a balance due date -/

/-- The claimed invariant: a record with `balance <= 0` has no
`balanceDueDate`. -/
@[reducible] def dueDateInv (rs : List CheckinRecord) : Prop :=
  ∀ r ∈ rs, r.balance ≤ 0 → r.balanceDueDate = none

/-- A closed-out record with debt and a stored due date. -/
def cOld5 : CheckinRecord :=
  { id := "old5", type := ClientType.member, gymNumber := some "G-5", name := "M"
    balance := 100, amountDue := 150, amountPaid := 50
    status := RecStatus.confirmed, checkoutTimestamp := some "2024-02-01T10:00:00"
    balanceDueDate := some "2024-03-01" }

/-- A well-formed pending draft for the same member. -/
def cDraft5 : CheckinDraft :=
  { type := ClientType.member, gymNumber := some "G-5", name := "M"
    status := RecStatus.pending
    paymentDetails := some { plan := "Monthly", amount := 900 } }

/-- Counterexample to claim C5 as stated: carrying the old balance into a
new check-in zeroes the old record's `balance` but leaves its
`balanceDueDate` in place, so `addCheckinRecord` breaks the invariant on
a state that satisfied it. -/
theorem dueDate_inv_cex :
    dueDateInv [cOld5] ∧ ¬ dueDateInv (addCheckinRecord "new5" "T2" cDraft5 [cOld5]) := by
  with_unfolding_all decide

theorem dueDateInv_map (recs : List CheckinRecord) (f : CheckinRecord → CheckinRecord)
    (hf : ∀ r ∈ recs, (f r).balance ≤ 0 → (f r).balanceDueDate = none) :
    dueDateInv (recs.map f) := by
  intro r' hr'
  obtain ⟨r, hr, rfl⟩ := List.mem_map.mp hr'
  exact hf r hr

/-- Claim C5 (amended): the invariant `balance <= 0 → balanceDueDate`
absent is maintained by the payment operations and by item removal
(each clears `balanceDueDate` whenever the resulting balance is
non-positive); it is NOT maintained by `addCheckinRecord` (carry-over
zeroing keeps the old record's due date, see the counterexample), by
`addPartialDuesPaymentToRecord` (it stores the supplied due date
unconditionally), or by `confirmCheckout` (it persists a supplied date
regardless of balance). -/
theorem dueDate_inv_amended (recs : List CheckinRecord) (hinv : dueDateInv recs) :
    (∀ id p dd, dueDateInv (addPaymentToRecord id p dd recs))
    ∧ (∀ id p sp dd, dueDateInv (processPayment id p sp dd recs))
    ∧ (∀ id itemId, dueDateInv (removeItemFromRecord id itemId recs)) := by
  refine ⟨?_, ?_, ?_⟩
  · intro id p dd
    refine dueDateInv_map recs _ (fun r hr => ?_)
    by_cases hid : r.id = id
    · simp only [if_pos hid]
      intro hbal
      exact if_neg (not_lt.mpr hbal)
    · simp only [if_neg hid]
      exact hinv r hr
  · intro id p sp dd
    refine dueDateInv_map recs _ (fun r hr => ?_)
    by_cases hid : r.id = id
    · simp only [if_pos hid]
      intro hbal
      exact if_neg (not_lt.mpr hbal)
    · simp only [if_neg hid]
      exact hinv r hr
  · intro id itemId
    refine dueDateInv_map recs _ (fun r hr => ?_)
    by_cases hid : r.id = id
    · simp only [if_pos hid]
      rcases hfind : r.productsPurchased.find? (fun p => decide (p.itemId = itemId)) with _ | item
      · rw [hfind]
        exact hinv r hr
      · rw [hfind]
        intro hbal
        show (if 0 < r.balance - item.price * item.quantity then r.balanceDueDate else none) = none
        have hbal' : r.balance - item.price * item.quantity ≤ 0 := hbal
        exact if_neg (not_lt.mpr hbal')
    · simp only [if_neg hid]
      exact hinv r hr

/-- Instantiation of the amended invariant on a concrete state: a full
payment on `cRecW` leaves no dangling due date. -/
theorem dueDate_inv_amended_witness :
    dueDateInv (addPaymentToRecord "rec-9" 40 (some "2024-03-01") [cRecW]) :=
  (dueDate_inv_amended [cRecW] (by with_unfolding_all decide)).1 "rec-9" 40 (some "2024-03-01")

/-! ## Claim C1: the balance relation -/

/-- The claimed invariant: `balance == amountDue - amountPaid` for every
record (exact over the rationals; the two-decimal tolerance of the spec
covers only binary floating-point noise, which this model abstracts
away). -/
@[reducible] def balInv (rs : List CheckinRecord) : Prop :=
  ∀ r ∈ rs, r.balance = r.amountDue - r.amountPaid

/-- The draft's derived monetary fields satisfy the balance relation. -/
@[reducible] def draftMoneyConsistent (dr : CheckinDraft) : Prop :=
  derivedBalance dr = derivedAmountDue dr - derivedAmountPaid dr

/-- Counterexample to claim C1 as stated: on a state satisfying the
invariant, `addCheckinRecord` with a perfectly consistent draft zeroes
the carried-over source record's `balance` while leaving its
`amountDue`/`amountPaid` untouched, so that record ends with
`balance ≠ amountDue - amountPaid`. -/
theorem balance_relation_cex :
    balInv [cOld5] ∧ draftMoneyConsistent cDraft5
    ∧ ¬ balInv (addCheckinRecord "new5" "T2" cDraft5 [cOld5]) := by
  with_unfolding_all decide

theorem balInv_map (recs : List CheckinRecord) (f : CheckinRecord → CheckinRecord)
    (hinv : balInv recs)
    (hf : ∀ r ∈ recs, r.balance = r.amountDue - r.amountPaid →
      (f r).balance = (f r).amountDue - (f r).amountPaid) :
    balInv (recs.map f) := by
  intro r' hr'
  obtain ⟨r, hr, rfl⟩ := List.mem_map.mp hr'
  exact hf r hr (hinv r hr)

theorem baseRecordOf_inv (newId now : String) (dr : CheckinDraft)
    (h : draftMoneyConsistent dr) :
    (baseRecordOf newId now dr).balance =
      (baseRecordOf newId now dr).amountDue - (baseRecordOf newId now dr).amountPaid := h

theorem withCarry_inv (s : ℚ) (r : CheckinRecord)
    (h : r.balance = r.amountDue - r.amountPaid) :
    (withCarry s r).balance = (withCarry s r).amountDue - (withCarry s r).amountPaid := by
  unfold withCarry
  split
  · show r.balance + s = (r.amountDue + s) - r.amountPaid
    rw [h]
    ring
  · exact h

theorem stageThree_inv (dr : CheckinDraft) (r : CheckinRecord)
    (h : r.balance = r.amountDue - r.amountPaid) :
    (stageThree dr r).balance = (stageThree dr r).amountDue - (stageThree dr r).amountPaid := by
  unfold stageThree
  split
  · show ((r.paymentDetails.map PaymentDetails.amount).getD 0) + (r.carriedOverBalance.getD 0) =
      (((r.paymentDetails.map PaymentDetails.amount).getD 0) + (r.carriedOverBalance.getD 0)) - 0
    ring
  · exact h

/-- Evaluation of `requestCheckoutByRecordId` once `find?` is resolved. -/
theorem requestCheckout_found (id : String) (recs : List CheckinRecord) (r0 : CheckinRecord)
    (hfind : recs.find? (fun r => decide (r.id = id)) = some r0) :
    requestCheckoutByRecordId id recs =
      if r0.status = RecStatus.confirmed ∧ r0.checkoutTimestamp = none ∧ r0.pendingAction = none then
        (recs.map (fun r => if r.id = id then { r with pendingAction := some PendingKind.checkout } else r),
          true)
      else (recs, false) := by
  rw [requestCheckoutByRecordId, hfind]

theorem isCarrySource_pos (dr : CheckinDraft) (r : CheckinRecord)
    (h : isCarrySource dr r = true) : 0 < r.balance := by
  unfold isCarrySource at h
  rcases hcid : draftClientId dr with _ | cid
  · rw [hcid] at h
    exact absurd h (by simp)
  · rw [hcid] at h
    simp only [Bool.and_eq_true, decide_eq_true_eq] at h
    exact h.1.2

theorem carrySources_nil_of_sum_eq_zero (dr : CheckinDraft) (recs : List CheckinRecord)
    (hS : carryOverSum dr recs = 0) : carrySources dr recs = [] := by
  rcases hcs : carrySources dr recs with _ | ⟨a, t⟩
  · rfl
  · exfalso
    have hpos : 0 < ((carrySources dr recs).map CheckinRecord.balance).sum := by
      apply List.sum_pos
      · intro x hx
        obtain ⟨y, hy, rfl⟩ := List.mem_map.mp hx
        exact isCarrySource_pos dr y (List.of_mem_filter hy)
      · rw [hcs]
        simp
    rw [carryOverSum] at hS
    rw [hS] at hpos
    exact lt_irrefl 0 hpos

/-- Claim C1 (amended): every mutating check-in ledger operation
preserves `balance = amountDue - amountPaid` across the collection,
with two provisos forced by the counterexample and the draft handling:
`addCheckinRecord` preserves it for the whole collection exactly when no
positive closed-out balance is being carried over (the carry-over step
zeroes the source records' balance without touching their
`amountDue`/`amountPaid`), and in general its newly inserted record
satisfies the relation whenever the draft's derived monetary fields do;
`confirmPendingRecord` preserves it when the caller-supplied updates do
not override `amountDue`/`amountPaid`/`balance`. -/
theorem balance_relation_amended (recs : List CheckinRecord) (hinv : balInv recs) :
    (∀ newId now dr, draftMoneyConsistent dr → carryOverSum dr recs = 0 →
      balInv (addCheckinRecord newId now dr recs))
    ∧ (∀ newId now dr nr, draftMoneyConsistent dr →
      (addCheckinRecord newId now dr recs).head? = some nr →
      nr.balance = nr.amountDue - nr.amountPaid)
    ∧ (∀ fid id u, u.amountDue = none → u.amountPaid = none → u.balance = none →
      balInv (confirmPendingRecord fid id u recs))
    ∧ (∀ id reason, balInv (cancelPendingRecord id reason recs))
    ∧ (∀ now id dd, balInv (confirmCheckout now id dd recs).1)
    ∧ (∀ id, balInv (cancelPendingCheckout id recs))
    ∧ (∀ id products total, balInv (addCheckoutRecord id products total recs))
    ∧ (∀ id p dd, balInv (addPaymentToRecord id p dd recs))
    ∧ (∀ id p sp dd, balInv (processPayment id p sp dd recs))
    ∧ (∀ id, balInv (requestCheckoutByRecordId id recs).1)
    ∧ (∀ mk id plans, balInv (addPlansToRecordTab mk id plans recs))
    ∧ (∀ id itemId, balInv (removeItemFromRecord id itemId recs))
    ∧ (∀ id plans, balInv (addPaymentsToRecord id plans recs))
    ∧ (∀ id plans p dd, balInv (addPartialDuesPaymentToRecord id plans p dd recs))
    ∧ (∀ mk id plans, balInv (addServicesToWalkinRecord mk id plans recs))
    ∧ (∀ id coach, balInv (assignCoachToRecord id coach recs))
    ∧ (∀ id, balInv (markRecordSessionCompleted id recs)) := by
  refine ⟨?_, ?_, ?_, ?_, ?_, ?_, ?_, ?_, ?_, ?_, ?_, ?_, ?_, ?_, ?_, ?_, ?_⟩
  · intro newId now dr hcons hS
    rw [addCheckinRecord]
    intro r' hr'
    rcases List.mem_cons.mp hr' with rfl | hr2
    · rw [hS]
      exact stageThree_inv dr _ (withCarry_inv 0 _ (baseRecordOf_inv newId now dr hcons))
    · rw [carrySources_nil_of_sum_eq_zero dr recs hS] at hr2
      obtain ⟨r, hr, rfl⟩ := List.mem_map.mp hr2
      rw [if_neg (by simp)]
      exact hinv r hr
  · intro newId now dr nr hcons hhead
    rw [addCheckinRecord, List.head?_cons, Option.some.injEq] at hhead
    exact hhead ▸ stageThree_inv dr _ (withCarry_inv _ _ (baseRecordOf_inv newId now dr hcons))
  · intro fid id u hdue hpaid hbal
    refine balInv_map recs _ hinv (fun r hr h => ?_)
    by_cases hid : r.id = id
    · simp only [if_pos hid]
      have hb : (applyUpdates r u).balance = r.balance := by
        rw [applyUpdates, hbal]
        rfl
      have hd : (applyUpdates r u).amountDue = r.amountDue := by
        rw [applyUpdates, hdue]
        rfl
      have hp : (applyUpdates r u).amountPaid = r.amountPaid := by
        rw [applyUpdates, hpaid]
        rfl
      by_cases hnw : (applyUpdates r u).isNewWalkin
      · simp only [if_pos hnw]
        show (applyUpdates r u).balance = (applyUpdates r u).amountDue - (applyUpdates r u).amountPaid
        rw [hb, hd, hp]
        exact h
      · simp only [if_neg hnw]
        show (applyUpdates r u).balance = (applyUpdates r u).amountDue - (applyUpdates r u).amountPaid
        rw [hb, hd, hp]
        exact h
    · simp only [if_neg hid]
      exact h
  · intro id reason
    refine balInv_map recs _ hinv (fun r hr h => ?_)
    by_cases hid : r.id = id
    · simp only [if_pos hid]
      exact h
    · simp only [if_neg hid]
      exact h
  · intro now id dd
    simp only [confirmCheckout]
    split
    · exact hinv
    · refine balInv_map recs _ hinv (fun r hr h => ?_)
      by_cases hc : r.id = id ∧ r.pendingAction = some PendingKind.checkout
      · simp only [if_pos hc]
        exact h
      · simp only [if_neg hc]
        exact h
  · intro id
    refine balInv_map recs _ hinv (fun r hr h => ?_)
    by_cases hc : r.id = id ∧ r.pendingAction = some PendingKind.checkout
    · simp only [if_pos hc]
      exact h
    · simp only [if_neg hc]
      exact h
  · intro id products total
    refine balInv_map recs _ hinv (fun r hr h => ?_)
    by_cases hid : r.id = id
    · simp only [if_pos hid]
      show r.balance + total = (r.amountDue + total) - r.amountPaid
      rw [h]
      ring
    · simp only [if_neg hid]
      exact h
  · intro id p dd
    refine balInv_map recs _ hinv (fun r hr h => ?_)
    by_cases hid : r.id = id
    · simp only [if_pos hid]
      show r.balance - p = r.amountDue - (r.amountPaid + p)
      rw [h]
      ring
    · simp only [if_neg hid]
      exact h
  · intro id p sp dd
    refine balInv_map recs _ hinv (fun r hr h => ?_)
    by_cases hid : r.id = id
    · simp only [if_pos hid]
      show r.balance - p = r.amountDue - (r.amountPaid + p)
      rw [h]
      ring
    · simp only [if_neg hid]
      exact h
  · intro id
    rcases hfind : recs.find? (fun r => decide (r.id = id)) with _ | r0
    · rw [requestCheckoutByRecordId, hfind]
      exact hinv
    · rw [requestCheckout_found id recs r0 hfind]
      by_cases hc : r0.status = RecStatus.confirmed ∧ r0.checkoutTimestamp = none ∧ r0.pendingAction = none
      · rw [if_pos hc]
        refine balInv_map recs _ hinv (fun r hr h => ?_)
        by_cases hid : r.id = id
        · simp only [if_pos hid]
          exact h
        · simp only [if_neg hid]
          exact h
      · rw [if_neg hc]
        exact hinv
  · intro mk id plans
    refine balInv_map recs _ hinv (fun r hr h => ?_)
    by_cases hid : r.id = id
    · simp only [if_pos hid]
      show r.balance + (plans.map PricePlan.amount).sum =
        (r.amountDue + (plans.map PricePlan.amount).sum) - r.amountPaid
      rw [h]
      ring
    · simp only [if_neg hid]
      exact h
  · intro id itemId
    refine balInv_map recs _ hinv (fun r hr h => ?_)
    by_cases hid : r.id = id
    · simp only [if_pos hid]
      rcases hfind : r.productsPurchased.find? (fun p => decide (p.itemId = itemId)) with _ | item
      · rw [hfind]
        exact h
      · rw [hfind]
        show r.balance - item.price * item.quantity =
          (r.amountDue - item.price * item.quantity) - r.amountPaid
        rw [h]
        ring
    · simp only [if_neg hid]
      exact h
  · intro id plans
    refine balInv_map recs _ hinv (fun r hr h => ?_)
    by_cases hid : r.id = id
    · simp only [if_pos hid]
      show r.balance = (r.amountDue + (plans.map PricePlan.amount).sum) -
        (r.amountPaid + (plans.map PricePlan.amount).sum)
      rw [h]
      ring
    · simp only [if_neg hid]
      exact h
  · intro id plans p dd
    refine balInv_map recs _ hinv (fun r hr h => ?_)
    by_cases hid : r.id = id
    · simp only [if_pos hid]
      show r.balance + (plans.map PricePlan.amount).sum - p =
        (r.amountDue + (plans.map PricePlan.amount).sum) - (r.amountPaid + p)
      rw [h]
      ring
    · simp only [if_neg hid]
      exact h
  · intro mk id plans
    refine balInv_map recs _ hinv (fun r hr h => ?_)
    by_cases hc : r.id = id ∧ r.type = ClientType.walkin
    · simp only [if_pos hc]
      show r.balance + (plans.map PricePlan.amount).sum =
        (r.amountDue + (plans.map PricePlan.amount).sum) - r.amountPaid
      rw [h]
      ring
    · simp only [if_neg hc]
      exact h
  · intro id coach
    refine balInv_map recs _ hinv (fun r hr h => ?_)
    by_cases hid : r.id = id
    · simp only [if_pos hid]
      exact h
    · simp only [if_neg hid]
      exact h
  · intro id
    refine balInv_map recs _ hinv (fun r hr h => ?_)
    by_cases hid : r.id = id
    · simp only [if_pos hid]
      exact h
    · simp only [if_neg hid]
      exact h

/-- Instantiation of the amended balance invariant: a concrete
consistent state stays consistent under a payment, a tab addition and a
no-carry record creation. -/
theorem balance_relation_amended_witness :
    balInv (addPaymentToRecord "rec-9" 15 none [cRecW])
    ∧ balInv (addCheckinRecord "new9" "T9" cDraft5 [cRecW])
    ∧ balInv (addPartialDuesPaymentToRecord "rec-9" [] 5 "2024-03-01" [cRecW]) := by
  have h := balance_relation_amended [cRecW] (by with_unfolding_all decide)
  exact ⟨h.2.2.2.2.2.2.2.1 "rec-9" 15 none,
    h.1 "new9" "T9" cDraft5 (by with_unfolding_all decide) (by with_unfolding_all decide),
    h.2.2.2.2.2.2.2.2.2.2.2.2.2.1 "rec-9" [] 5 "2024-03-01"⟩

/-! ## Claim C2: carrying over prior debt -/

/-- A pending draft that already carries a preset `carriedOverBalance`
key: stage 3 of `addCheckinRecord` folds that preset value into the
no-prior-debt amounts, but stage 2 overwrites it when real debt is
carried, so the "increase by exactly the carried sum" comparison
breaks. -/
def cDraft2 : CheckinDraft :=
  { type := ClientType.member, gymNumber := some "G-5", name := "M"
    status := RecStatus.pending
    paymentDetails := some { plan := "Monthly", amount := 900 }
    carriedOverBalance := some 7 }

/-- Counterexample to claim C2 as stated: with prior debt of 100 the
inserted record's `amountDue` is 1000, while the draft-derived amount
(the record the same draft produces with no prior records) is 907 — an
increase of 93, not of the carried sum 100. -/
theorem carryover_cex :
    carryOverSum cDraft2 [cOld5] = 100
    ∧ (addCheckinRecord "n2" "T" cDraft2 []).head?.map CheckinRecord.amountDue = some 907
    ∧ (addCheckinRecord "n2" "T" cDraft2 [cOld5]).head?.map CheckinRecord.amountDue = some 1000
    ∧ (addCheckinRecord "n2" "T" cDraft2 [cOld5]).head?.map CheckinRecord.amountDue ≠
        (addCheckinRecord "n2" "T" cDraft2 []).head?.map
          (fun r => r.amountDue + carryOverSum cDraft2 [cOld5]) := by
  with_unfolding_all decide

theorem withCarry_of_pos (s : ℚ) (r : CheckinRecord) (h : 0 < s) :
    withCarry s r =
      { r with
        carriedOverBalance := some s
        amountDue := r.amountDue + s
        balance := r.balance + s
        paymentDetails := r.paymentDetails.map (fun pd => { pd with plan := pd.plan ++ " (+prev bal)" }) } := by
  unfold withCarry
  rw [if_pos h]

theorem withCarry_zero (r : CheckinRecord) : withCarry 0 r = r := by
  unfold withCarry
  rw [if_neg (lt_irrefl 0)]

theorem stageThree_carried (dr : CheckinDraft) (x : CheckinRecord) :
    (stageThree dr x).carriedOverBalance = x.carriedOverBalance := by
  unfold stageThree
  split <;> rfl

theorem pd_amount_map (p : Option PaymentDetails) :
    ((p.map (fun pd => { pd with plan := pd.plan ++ " (+prev bal)" })).map PaymentDetails.amount).getD 0
      = (p.map PaymentDetails.amount).getD 0 := by
  cases p <;> rfl

theorem mem_carryIds_iff (dr : CheckinDraft) (recs : List CheckinRecord)
    (hnd : (recs.map CheckinRecord.id).Nodup) {r : CheckinRecord} (hr : r ∈ recs) :
    r.id ∈ (carrySources dr recs).map CheckinRecord.id ↔ isCarrySource dr r = true := by
  constructor
  · intro hmem
    obtain ⟨r', hr', heq⟩ := List.mem_map.mp hmem
    have hr'recs : r' ∈ recs := List.mem_of_mem_filter hr'
    have hrr : r' = r := List.inj_on_of_nodup_map hnd hr'recs hr heq
    exact hrr ▸ List.of_mem_filter hr'
  · intro hsrc
    exact List.mem_map_of_mem _ (List.mem_filter.mpr ⟨hr, hsrc⟩)

/-- Claim C2 (amended): for every record list with distinct ids and
every draft that does not itself carry a preset `carriedOverBalance`
key, when the sum `S` of positive balances over the same client's
closed-out prior records is positive, `addCheckinRecord` inserts a
record carrying `carriedOverBalance = S` whose `amountDue` and `balance`
exceed the draft-derived amounts (the record the same draft would
produce with no prior records) by exactly `S`, zeroes the balance of
exactly the source records, and leaves every other prior record
unchanged. -/
theorem carryover_correct (newId now : String) (dr : CheckinDraft) (recs : List CheckinRecord)
    (hnd : (recs.map CheckinRecord.id).Nodup)
    (hnc : dr.carriedOverBalance = none)
    (hpos : 0 < carryOverSum dr recs) :
    ∃ nr nr0,
      addCheckinRecord newId now dr recs =
        nr :: recs.map (fun r => if isCarrySource dr r then { r with balance := 0 } else r)
      ∧ addCheckinRecord newId now dr [] = [nr0]
      ∧ nr.carriedOverBalance = some (carryOverSum dr recs)
      ∧ nr.amountDue = nr0.amountDue + carryOverSum dr recs
      ∧ nr.balance = nr0.balance + carryOverSum dr recs := by
  refine ⟨stageThree dr (withCarry (carryOverSum dr recs) (baseRecordOf newId now dr)),
    stageThree dr (withCarry 0 (baseRecordOf newId now dr)), ?_, rfl, ?_, ?_, ?_⟩
  · rw [addCheckinRecord]
    congr 1
    refine List.map_congr_left (fun r hr => ?_)
    by_cases hm : isCarrySource dr r = true
    · rw [if_pos ((mem_carryIds_iff dr recs hnd hr).mpr hm), if_pos hm]
    · rw [if_neg (fun hmem => hm ((mem_carryIds_iff dr recs hnd hr).mp hmem)), if_neg hm]
  · rw [stageThree_carried, withCarry_of_pos _ _ hpos]
  · rw [withCarry_of_pos _ _ hpos, withCarry_zero]
    by_cases hcond : dr.status = RecStatus.pending ∧ dr.amountDue = none
    · simp only [stageThree, baseRecordOf, if_pos hcond, pd_amount_map, hnc,
        Option.getD_some, Option.getD_none]
      ring
    · simp only [stageThree, baseRecordOf, if_neg hcond]
  · rw [withCarry_of_pos _ _ hpos, withCarry_zero]
    by_cases hcond : dr.status = RecStatus.pending ∧ dr.amountDue = none
    · simp only [stageThree, baseRecordOf, if_pos hcond, pd_amount_map, hnc,
        Option.getD_some, Option.getD_none]
      ring
    · simp only [stageThree, baseRecordOf, if_neg hcond]

/-- Instantiation of the amended carry-over contract on a concrete
state: the draft `cDraft5` (no preset carried balance) against the
closed-out debtor record `cOld5`. -/
theorem carryover_correct_witness :
    ∃ nr nr0,
      addCheckinRecord "new2" "T2" cDraft5 [cOld5] =
        nr :: [cOld5].map (fun r => if isCarrySource cDraft5 r then { r with balance := 0 } else r)
      ∧ addCheckinRecord "new2" "T2" cDraft5 [] = [nr0]
      ∧ nr.carriedOverBalance = some (carryOverSum cDraft5 [cOld5])
      ∧ nr.amountDue = nr0.amountDue + carryOverSum cDraft5 [cOld5]
      ∧ nr.balance = nr0.balance + carryOverSum cDraft5 [cOld5] :=
  carryover_correct "new2" "T2" cDraft5 [cOld5]
    (by with_unfolding_all decide) rfl (by with_unfolding_all decide)

/-! ## Claim C7: bounded session consumption for members -/

/-- The claimed per-member invariant. -/
@[reducible] def memberInvOne (m : Member) : Prop :=
  m.hasCoach = true → m.sessionsUsed.getD 0 ≤ m.totalSessions.getD 0

/-- The claimed invariant over the member collection. -/
@[reducible] def memberSessionInv (ms : List Member) : Prop :=
  ∀ m ∈ ms, memberInvOne m

theorem sessionTrainingType_used (n : String) (um : Member) :
    (sessionTrainingType n um).sessionsUsed = um.sessionsUsed := by
  unfold sessionTrainingType
  split
  · rfl
  · split
    · rfl
    · split
      · rfl
      · split <;> rfl

theorem sessionTrainingType_total (n : String) (um : Member) :
    (sessionTrainingType n um).totalSessions = um.totalSessions := by
  unfold sessionTrainingType
  split
  · rfl
  · split
    · rfl
    · split
      · rfl
      · split <;> rfl

theorem applySessionPlan_invOne (today : JSDate) (m : Member) (p : PricePlan) :
    memberInvOne (applySessionPlan today m p) := by
  intro _
  show (applySessionPlan today m p).sessionsUsed.getD 0 ≤ (applySessionPlan today m p).totalSessions.getD 0
  simp only [applySessionPlan]
  split
  · simp
  · rename_i hcond
    rw [not_or] at hcond
    have h1 := hcond.1
    simp only [sessionTrainingType_used, sessionTrainingType_total, Option.getD_some] at h1 ⊢
    omega

theorem applyLockerPlan_invOne (today : JSDate) (m : Member) (h : memberInvOne m) :
    memberInvOne (applyLockerPlan today m) :=
  fun hc => h hc

theorem applyFeePlan_invOne (today : JSDate) (m : Member) (h : memberInvOne m) :
    memberInvOne (applyFeePlan today m) :=
  fun hc => h hc

theorem applyRenewal_invOne (today start : JSDate) (um : Member) (nameLower : String)
    (hk : HistoryKind) (ht : String) (h : memberInvOne um) :
    memberInvOne (applyRenewal today start um nameLower hk ht) := by
  unfold applyRenewal
  cases renewKindOf nameLower
  · exact h
  · exact fun hc => h hc

theorem addHistoryEntry_invOne (m : Member) (k : HistoryKind) (t : String)
    (h : memberInvOne m) : memberInvOne (addHistoryEntry m k t) :=
  fun hc => h hc

theorem addPlansToMemberOne_invOne (today : JSDate) (asPayment : Bool) (um : Member)
    (p : PricePlan) (h : memberInvOne um) :
    memberInvOne (addPlansToMemberOne today asPayment um p) := by
  simp only [addPlansToMemberOne]
  split
  · exact addHistoryEntry_invOne _ _ _ (applySessionPlan_invOne today um p)
  · split
    · exact addHistoryEntry_invOne _ _ _ (applyLockerPlan_invOne today um h)
    · split
      · exact addHistoryEntry_invOne _ _ _ (applyFeePlan_invOne today um h)
      · exact applyRenewal_invOne _ _ _ _ _ _ h

theorem applyPlanToMember_invOne (today : JSDate) (nss : Option JSDate) (um : Member)
    (p : PricePlan) (h : memberInvOne um) :
    memberInvOne (applyPlanToMember today nss um p) := by
  simp only [applyPlanToMember]
  split
  · exact addHistoryEntry_invOne _ _ _ (applySessionPlan_invOne today um p)
  · split
    · exact addHistoryEntry_invOne _ _ _ (applyLockerPlan_invOne today um h)
    · split
      · exact addHistoryEntry_invOne _ _ _ (applyFeePlan_invOne today um h)
      · exact applyRenewal_invOne _ _ _ _ _ _ h

theorem foldl_invOne {α : Type} (step : Member → α → Member)
    (hstep : ∀ m a, memberInvOne m → memberInvOne (step m a)) (l : List α) (m : Member)
    (h : memberInvOne m) : memberInvOne (l.foldl step m) := by
  induction l generalizing m with
  | nil => exact h
  | cons a as ih => exact ih (step m a) (hstep m a h)

theorem applyPaymentPlansToMember_invOne (today : JSDate) (m : Member)
    (plans : List PricePlan) (nss : Option JSDate) (h : memberInvOne m) :
    memberInvOne (applyPaymentPlansToMember today m plans nss) :=
  foldl_invOne _ (fun m' p' h' => applyPlanToMember_invOne today nss m' p' h') plans m h

theorem mem_replaceFirst {α : Type} (p : α → Bool) (y : α) (l : List α) (x : α)
    (hx : x ∈ replaceFirst p y l) : x = y ∨ x ∈ l := by
  induction l with
  | nil => simp [replaceFirst] at hx
  | cons a as ih =>
    rw [replaceFirst] at hx
    by_cases hp : p a
    · rw [if_pos hp] at hx
      rcases List.mem_cons.mp hx with rfl | hx2
      · exact Or.inl rfl
      · exact Or.inr (List.mem_cons_of_mem a hx2)
    · rw [if_neg hp] at hx
      rcases List.mem_cons.mp hx with rfl | hx2
      · exact Or.inr (List.mem_cons_self _ _)
      · rcases ih hx2 with h | h
        · exact Or.inl h
        · exact Or.inr (List.mem_cons_of_mem a h)

theorem markSessionBranch_invOne (today : JSDate) (m : Member) (h : memberInvOne m)
    (m' : Member) (hm' : (markSessionBranch today m).1 = some m') : memberInvOne m' := by
  rw [markSessionBranch] at hm'
  split at hm'
  · split at hm'
    · obtain rfl := Option.some.inj hm'
      intro _
      simp [addHistoryEntry]
    · exact absurd hm' (by simp)
  · split at hm'
    · exact absurd hm' (by simp)
    · split at hm'
      · split at hm'
        · obtain rfl := Option.some.inj hm'
          exact fun hc => h hc
        · exact absurd hm' (by simp)
      · rename_i hc3
        obtain rfl := Option.some.inj hm'
        intro _
        split
        · simp only [addHistoryEntry, Option.getD_some]
          omega
        · simp only [addHistoryEntry, Option.getD_some]
          omega

theorem useSessionStep_invOne (id : String) (m : Member) (h : memberInvOne m) :
    memberInvOne (useSessionStep id m).1 := by
  simp only [useSessionStep]
  split
  · split
    · rename_i hlt
      intro _
      simp only [addHistoryEntry, Option.getD_some]
      omega
    · exact h
  · exact h

theorem useSession_inv (id : String) (ms : List Member) (hinv : memberSessionInv ms) :
    memberSessionInv (useSession id ms).1 := by
  intro x hx
  obtain ⟨m, hm, rfl⟩ := List.mem_map.mp hx
  exact useSessionStep_invOne id m (hinv m hm)

/-- Evaluation of `markSessionComplete` once `find?` is resolved. -/
theorem markSessionComplete_found (today : JSDate) (id : String) (ms : List Member) (m : Member)
    (hfind : ms.find? (fun x => decide (x.id = id)) = some m) :
    markSessionComplete today id ms =
      match markSessionBranch today m with
      | (none, msg) => (ms, msg)
      | (some m', msg) => (replaceFirst (fun x => decide (x.id = id)) m' ms, msg) := by
  rw [markSessionComplete, hfind]

theorem markSessionComplete_inv (today : JSDate) (id : String) (ms : List Member)
    (hinv : memberSessionInv ms) : memberSessionInv (markSessionComplete today id ms).1 := by
  cases hfind : ms.find? (fun m => decide (m.id = id)) with
  | none =>
    rw [markSessionComplete, hfind]
    exact hinv
  | some m =>
    rw [markSessionComplete_found today id ms m hfind]
    rcases hfin : markSessionBranch today m with ⟨fin, msg⟩
    cases fin with
    | none => exact hinv
    | some m' =>
      intro x hx
      rcases mem_replaceFirst _ _ _ _ hx with rfl | hx2
      · exact markSessionBranch_invOne today m
          (hinv m (List.mem_of_find?_eq_some hfind)) x (by rw [hfin])
      · exact hinv x hx2

theorem addPlansToMember_inv (today : JSDate) (id : String) (plans : List PricePlan)
    (asPayment : Bool) (ms : List Member) (hinv : memberSessionInv ms) :
    memberSessionInv (addPlansToMember today id plans asPayment ms) := by
  intro x hx
  obtain ⟨m, hm, rfl⟩ := List.mem_map.mp hx
  by_cases hid : m.id = id
  · simp only [if_pos hid]
    exact foldl_invOne _ (fun m' p' h' => addPlansToMemberOne_invOne today asPayment m' p' h')
      plans m (hinv m hm)
  · simp only [if_neg hid]
    exact hinv m hm

theorem unfreezeMember_inv (today : JSDate) (id : String) (ms : List Member)
    (hinv : memberSessionInv ms) : memberSessionInv (unfreezeMember today id ms) := by
  intro x hx
  obtain ⟨m, hm, rfl⟩ := List.mem_map.mp hx
  by_cases hc : m.id = id ∧ m.status.toLower = "frozen"
  · simp only [if_pos hc]
    exact fun hcc => hinv m hm hcc
  · simp only [if_neg hc]
    exact hinv m hm

theorem updateMemberHist_invOne (old updated : Member) (h : memberInvOne updated) :
    memberInvOne (updateMemberHist old updated) := by
  simp only [updateMemberHist]
  split
  · split
    · exact addHistoryEntry_invOne _ _ _ (addHistoryEntry_invOne _ _ _ h)
    · exact addHistoryEntry_invOne _ _ _ h
  · split
    · exact addHistoryEntry_invOne _ _ _ h
    · exact h

theorem updateMember_inv (today : JSDate) (updated : Member) (plans : List PricePlan)
    (nss : Option JSDate) (ms : List Member) (hinv : memberSessionInv ms)
    (hupd : memberInvOne updated) :
    memberSessionInv (updateMember today updated plans nss ms) := by
  intro x hx
  obtain ⟨m, hm, rfl⟩ := List.mem_map.mp hx
  by_cases hid : m.id = updated.id
  · simp only [if_pos hid]
    split
    · exact applyPaymentPlansToMember_invOne today _ plans nss (updateMemberHist_invOne m updated hupd)
    · exact updateMemberHist_invOne m updated hupd
  · simp only [if_neg hid]
    exact hinv m hm

theorem useSessionStep_noop (id : String) (x : Member)
    (hx : x.id ≠ id ∨ x.hasCoach = false ∨ x.totalSessions.getD 0 ≤ x.sessionsUsed.getD 0) :
    useSessionStep id x = (x, none) := by
  simp only [useSessionStep]
  rcases hx with h | h | h
  · rw [if_neg (fun hc => h hc.1)]
  · rw [if_neg (fun hc => by rw [h] at hc; exact Bool.false_ne_true hc.2)]
  · by_cases hc : x.id = id ∧ x.hasCoach = true
    · rw [if_pos hc, if_neg (by omega)]
    · rw [if_neg hc]

theorem useSession_exhausted (id : String) (ms : List Member) (m : Member)
    (hnd : (ms.map Member.id).Nodup) (hm : m ∈ ms) (hid : m.id = id)
    (hex : m.hasCoach = false ∨ m.totalSessions.getD 0 ≤ m.sessionsUsed.getD 0) :
    useSession id ms = (ms, false) := by
  have hstep : ∀ x ∈ ms, useSessionStep id x = (x, none) := by
    intro x hx
    apply useSessionStep_noop
    by_cases hxid : x.id = id
    · have hxm : x = m := List.inj_on_of_nodup_map hnd hx hm (by rw [hxid, hid])
      subst hxm
      exact Or.inr hex
    · exact Or.inl hxid
  unfold useSession
  refine Prod.ext ?_ ?_
  · exact map_eq_self _ _ (fun x hx => by rw [hstep x hx])
  · rw [foldl_assign_keep _ ms none (fun x hx => by rw [hstep x hx])]
    rfl

theorem markSessionBranch_nonsuccess (today : JSDate) (m : Member)
    (hex : isPastOrToday today m.sessionExpiryDate = true ∨
      m.totalSessions.getD 0 ≤ m.sessionsUsed.getD 0) :
    (markSessionBranch today m).2 ≠ MsgKind.success
    ∧ ∀ m', (markSessionBranch today m).1 = some m' →
      m'.sessionsUsed.getD 0 ≤ m.sessionsUsed.getD 0 := by
  by_cases hexp : isPastOrToday today m.sessionExpiryDate = true
  · rw [markSessionBranch, if_pos hexp]
    by_cases hst : m.status.toLower ≠ "inactive"
    · rw [if_pos hst]
      refine ⟨by simp, ?_⟩
      intro m' hm'
      obtain rfl := Option.some.inj hm'
      simp [addHistoryEntry]
    · rw [if_neg hst]
      exact ⟨by simp, fun m' hm' => absurd hm' (by simp)⟩
  · rw [markSessionBranch, if_neg hexp]
    by_cases hc2 : ¬ m.hasCoach = true ∨ m.totalSessions.getD 0 ≤ 0
    · rw [if_pos hc2]
      exact ⟨by simp, fun m' hm' => absurd hm' (by simp)⟩
    · rw [if_neg hc2]
      have hle : m.totalSessions.getD 0 ≤ m.sessionsUsed.getD 0 := hex.resolve_left hexp
      rw [if_pos hle]
      by_cases hst : m.status.toLower ≠ "sessions"
      · rw [if_pos hst]
        refine ⟨by simp, ?_⟩
        intro m' hm'
        obtain rfl := Option.some.inj hm'
        simp [addHistoryEntry]
      · rw [if_neg hst]
        exact ⟨by simp, fun m' hm' => absurd hm' (by simp)⟩

theorem markSessionComplete_exhausted (today : JSDate) (id : String) (ms : List Member)
    (m : Member) (hnd : (ms.map Member.id).Nodup) (hm : m ∈ ms) (hid : m.id = id)
    (hex : isPastOrToday today m.sessionExpiryDate = true ∨
      m.totalSessions.getD 0 ≤ m.sessionsUsed.getD 0) :
    ∃ l1 l2 mf, ms = l1 ++ m :: l2
      ∧ (markSessionComplete today id ms).1 = l1 ++ mf :: l2
      ∧ mf.sessionsUsed.getD 0 ≤ m.sessionsUsed.getD 0
      ∧ (markSessionComplete today id ms).2 ≠ MsgKind.success := by
  obtain ⟨l1, l2, rfl, h1, h2⟩ := mem_decomp_of_nodup Member.id hnd hm
  have hfind := find_decomp Member.id id l1 l2 m (fun x hx => hid ▸ h1 x hx) hid
  have hbr := markSessionBranch_nonsuccess today m hex
  rw [markSessionComplete_found today id _ m hfind]
  rcases hfin : markSessionBranch today m with ⟨fin, msg⟩
  rw [hfin] at hbr
  cases fin with
  | none => exact ⟨l1, l2, m, rfl, rfl, le_refl _, hbr.1⟩
  | some m' =>
    refine ⟨l1, l2, m', rfl, ?_, hbr.2 m' rfl, hbr.1⟩
    show replaceFirst (fun x => decide (x.id = id)) m' (l1 ++ m :: l2) = l1 ++ m' :: l2
    exact replaceFirst_decomp _ _ l1 l2 m
      (fun x hx => decide_eq_false (hid ▸ h1 x hx)) (decide_eq_true hid)

/-- `G-0001` with one remaining coached session; the per-member
invariant holds. -/
def cMember : Member :=
  { id := "G-0001", name := "A", hasCoach := true, totalSessions := some 1, sessionsUsed := some 0 }

/-- A caller-supplied update object whose session counters are
inconsistent. -/
def cMemberBad : Member :=
  { cMember with sessionsUsed := some 5 }

/-- A coached member whose session plan has expired with sessions left. -/
def cMemberExp : Member :=
  { id := "G-0002", name := "B", hasCoach := true, totalSessions := some 5, sessionsUsed := some 0,
    sessionExpiryDate := some ⟨2020, 1, 1⟩ }

/-- Counterexample to claim C7 as stated, on two counts: (1) the
member-ledger operation `updateMember` stores caller-supplied session
counters verbatim, so the invariant `sessionsUsed ≤ totalSessions` does
not survive every member-ledger operation; (2) `useSession` performs no
expiry check at all — on an expired but not exhausted plan it increments
and reports success. -/
theorem session_inv_cex :
    memberSessionInv [cMember]
    ∧ ¬ memberSessionInv (updateMember ⟨2024, 1, 10⟩ cMemberBad [] none [cMember])
    ∧ isPastOrToday ⟨2024, 1, 10⟩ cMemberExp.sessionExpiryDate = true
    ∧ (useSession "G-0002" [cMemberExp]).2 = true
    ∧ ((useSession "G-0002" [cMemberExp]).1.map (fun m => m.sessionsUsed.getD 0)) = [1] := by
  with_unfolding_all decide

/-- Claim C7 (amended): the invariant `sessionsUsed ≤ totalSessions`
(whenever `hasCoach`) is preserved by every member-ledger operation that
computes the session counters — `useSession`, `markSessionComplete`,
`addPlansToMember`, `unfreezeMember` — and by `updateMember` provided
the caller-supplied member object itself satisfies the invariant (the
code stores it verbatim).  `useSession` on a member with no coach or
with exhausted sessions mutates nothing and returns `false` (it performs
no expiry check); `markSessionComplete` on an exhausted or expired plan
never increments `sessionsUsed` and reports a non-success message. -/
theorem session_inv_amended (ms : List Member) (hinv : memberSessionInv ms) :
    (∀ id, memberSessionInv (useSession id ms).1)
    ∧ (∀ today id, memberSessionInv (markSessionComplete today id ms).1)
    ∧ (∀ today id plans asPayment, memberSessionInv (addPlansToMember today id plans asPayment ms))
    ∧ (∀ today id, memberSessionInv (unfreezeMember today id ms))
    ∧ (∀ today updated plans nss, memberInvOne updated →
        memberSessionInv (updateMember today updated plans nss ms))
    ∧ (∀ id m, (ms.map Member.id).Nodup → m ∈ ms → m.id = id →
        m.hasCoach = false ∨ m.totalSessions.getD 0 ≤ m.sessionsUsed.getD 0 →
        useSession id ms = (ms, false))
    ∧ (∀ today id m, (ms.map Member.id).Nodup → m ∈ ms → m.id = id →
        (isPastOrToday today m.sessionExpiryDate = true ∨
          m.totalSessions.getD 0 ≤ m.sessionsUsed.getD 0) →
        ∃ l1 l2 mf, ms = l1 ++ m :: l2
          ∧ (markSessionComplete today id ms).1 = l1 ++ mf :: l2
          ∧ mf.sessionsUsed.getD 0 ≤ m.sessionsUsed.getD 0
          ∧ (markSessionComplete today id ms).2 ≠ MsgKind.success) := by
  refine ⟨?_, ?_, ?_, ?_, ?_, ?_, ?_⟩
  · exact fun id => useSession_inv id ms hinv
  · exact fun today id => markSessionComplete_inv today id ms hinv
  · exact fun today id plans asPayment => addPlansToMember_inv today id plans asPayment ms hinv
  · exact fun today id => unfreezeMember_inv today id ms hinv
  · exact fun today updated plans nss hupd => updateMember_inv today updated plans nss ms hinv hupd
  · exact fun id m hnd hm hid hex => useSession_exhausted id ms m hnd hm hid hex
  · exact fun today id m hnd hm hid hex => markSessionComplete_exhausted today id ms m hnd hm hid hex

/-- An exhausted coached member used to instantiate the amended claim. -/
def cMemberFull : Member :=
  { id := "G-0003", name := "C", hasCoach := true, totalSessions := some 8, sessionsUsed := some 8 }

theorem session_inv_amended_witness :
    useSession "G-0003" [cMemberFull] = ([cMemberFull], false)
    ∧ memberSessionInv (useSession "G-0003" [cMemberFull]).1 :=
  ⟨(session_inv_amended [cMemberFull] (by with_unfolding_all decide)).2.2.2.2.2.1 "G-0003"
      cMemberFull (by with_unfolding_all decide) (by with_unfolding_all decide) rfl
      (Or.inr (by with_unfolding_all decide)),
    (session_inv_amended [cMemberFull] (by with_unfolding_all decide)).1 "G-0003"⟩

/-! ## Claim C6: renewal due-date arithmetic -/

theorem dateLT_irrefl (a : JSDate) : dateLT a a = false := by
  simp [dateLT]

theorem applyRenewal_dueDate (today start : JSDate) (um : Member) (nameLower : String)
    (hk0 : HistoryKind) (ht : String) (k : RenewKind)
    (hk : renewKindOf nameLower = some k) :
    (applyRenewal today start um nameLower hk0 ht).dueDate = some (applyRenewKind k start) := by
  unfold applyRenewal
  rw [hk]
  rfl

/-- Claim C6: for a member-type plan whose name matches one of the
renewal keywords (`renewKindOf`), both `addPlansToMember` (one-member
step) and `applyPaymentPlansToMember` extend the due date by the plan's
calendar interval from the existing `dueDate` when that date is strictly
in the future, and from today — or from the explicitly supplied
subscription start date, where the operation accepts one — when the due
date is today, past, or absent. -/
theorem renewal_dueDate_correct (today : JSDate) (m : Member) (p : PricePlan)
    (nss : Option JSDate) (k : RenewKind) (asPayment : Bool)
    (htype : p.type = PlanType.member)
    (hlock : containsSub "locker rental" p.name.toLower = false)
    (hfee : containsSub "membership fee" p.name.toLower = false)
    (hk : renewKindOf p.name.toLower = some k) :
    ((∀ dd, m.dueDate = some dd → dateLT today dd = true →
        (addPlansToMemberOne today asPayment m p).dueDate = some (applyRenewKind k dd))
      ∧ ((∀ dd, m.dueDate = some dd → dateLT today dd = false) →
        (addPlansToMemberOne today asPayment m p).dueDate = some (applyRenewKind k today)))
    ∧ ((∀ dd, m.dueDate = some dd → dateLE dd today = false →
        (applyPaymentPlansToMember today m [p] nss).dueDate = some (applyRenewKind k dd))
      ∧ ((m.dueDate = none ∨ ∃ dd, m.dueDate = some dd ∧ dateLE dd today = true) →
        (applyPaymentPlansToMember today m [p] nss).dueDate =
          some (applyRenewKind k (nss.getD today)))) := by
  have hsess : isSessionPlan p = false := by
    simp [isSessionPlan, htype]
  refine ⟨⟨?_, ?_⟩, ?_, ?_⟩
  · intro dd hdd hfut
    simp only [addPlansToMemberOne, hsess, hlock, hfee, Bool.false_eq_true, if_false,
      hdd, Option.getD_some, hfut, if_true]
    exact applyRenewal_dueDate today dd m p.name.toLower _ _ k hk
  · intro hpast
    simp only [addPlansToMemberOne, hsess, hlock, hfee, Bool.false_eq_true, if_false]
    cases hdd : m.dueDate with
    | none =>
      simp only [Option.getD_none, dateLT_irrefl, Bool.false_eq_true, if_false]
      exact applyRenewal_dueDate today today m p.name.toLower _ _ k hk
    | some dd =>
      simp only [Option.getD_some, hpast dd hdd, Bool.false_eq_true, if_false]
      exact applyRenewal_dueDate today today m p.name.toLower _ _ k hk
  · intro dd hdd hfut
    show (applyPlanToMember today nss m p).dueDate = some (applyRenewKind k dd)
    simp only [applyPlanToMember, hsess, hlock, hfee, Bool.false_eq_true, if_false,
      hdd, hfut, Option.getD_some]
    exact applyRenewal_dueDate today dd m p.name.toLower _ _ k hk
  · intro hdue
    show (applyPlanToMember today nss m p).dueDate = some (applyRenewKind k (nss.getD today))
    simp only [applyPlanToMember, hsess, hlock, hfee, Bool.false_eq_true, if_false]
    rcases hdue with hnone | ⟨dd, hdd, hle⟩
    · simp only [hnone, if_true]
      cases nss with
      | none => exact applyRenewal_dueDate today today m p.name.toLower _ _ k hk
      | some sd => exact applyRenewal_dueDate today sd m p.name.toLower _ _ k hk
    · simp only [hdd, hle, if_true]
      cases nss with
      | none => exact applyRenewal_dueDate today today m p.name.toLower _ _ k hk
      | some sd => exact applyRenewal_dueDate today sd m p.name.toLower _ _ k hk

/-- The spec's worked example: `G-0001` has `dueDate = 2024-01-01`,
buys a Monthly plan on 2024-01-10 (overdue), so the new due date is
2024-02-10 — extended from today, not from the stale due date. -/
def cMonthly : PricePlan :=
  { id := "price-2", name := "Monthly", amount := 900, type := PlanType.member }

theorem renewal_dueDate_correct_witness :
    (addPlansToMemberOne ⟨2024, 1, 10⟩ true { cMember with dueDate := some ⟨2024, 1, 1⟩ } cMonthly).dueDate
      = some (applyRenewKind RenewKind.monthly ⟨2024, 1, 10⟩)
    ∧ applyRenewKind RenewKind.monthly ⟨2024, 1, 10⟩ = ⟨2024, 2, 10⟩ :=
  ⟨(renewal_dueDate_correct ⟨2024, 1, 10⟩ { cMember with dueDate := some ⟨2024, 1, 1⟩ } cMonthly
      none RenewKind.monthly true rfl (by with_unfolding_all decide) (by with_unfolding_all decide)
      (by with_unfolding_all decide)).1.2
    (fun dd hdd => by
      rw [Option.some.inj hdd.symm] at *
      with_unfolding_all decide),
    by with_unfolding_all decide⟩

/-! ## Claim C9: parseDate -/

/-- A real calendar day. -/
def Canonical (x : JSDate) : Prop :=
  1 ≤ x.m ∧ x.m ≤ 12 ∧ 1 ≤ x.d ∧ x.d ≤ daysInMonth x.y x.m

/-- A calendar-valid year/month/day triple (the month in `1..12` and the
day within the month's length). -/
@[reducible] def validYMD (y m d : Int) : Prop :=
  1 ≤ m ∧ m ≤ 12 ∧ 1 ≤ d ∧ d ≤ (daysInMonth y m.toNat : Int)

theorem one_le_daysInMonth (y : Int) (m : Nat) : 1 ≤ daysInMonth y m := by
  unfold daysInMonth
  split
  · split <;> norm_num
  · split <;> norm_num

theorem daysInMonth_twelve (y : Int) : daysInMonth y 12 = 31 := by
  norm_num [daysInMonth]

theorem canonical_nextDay {x : JSDate} (h : Canonical x) : Canonical (nextDay x) := by
  obtain ⟨h1, h2, h3, h4⟩ := h
  unfold nextDay
  split
  · rename_i hd
    refine ⟨h1, h2, ?_, ?_⟩
    · show 1 ≤ x.d + 1
      omega
    · show x.d + 1 ≤ daysInMonth x.y x.m
      omega
  · split
    · rename_i hm
      refine ⟨?_, ?_, le_refl 1, one_le_daysInMonth _ _⟩
      · show 1 ≤ x.m + 1
        omega
      · show x.m + 1 ≤ 12
        omega
    · exact ⟨le_refl 1, by norm_num, le_refl 1, one_le_daysInMonth _ _⟩

theorem canonical_prevDay {x : JSDate} (h : Canonical x) : Canonical (prevDay x) := by
  obtain ⟨h1, h2, h3, h4⟩ := h
  unfold prevDay
  split
  · rename_i hd
    refine ⟨h1, h2, ?_, ?_⟩
    · show 1 ≤ x.d - 1
      omega
    · show x.d - 1 ≤ daysInMonth x.y x.m
      omega
  · split
    · rename_i hm
      refine ⟨?_, ?_, one_le_daysInMonth _ _, le_refl _⟩
      · show 1 ≤ x.m - 1
        omega
      · show x.m - 1 ≤ 12
        omega
    · refine ⟨by norm_num, by norm_num, by norm_num, ?_⟩
      show 31 ≤ daysInMonth (x.y - 1) 12
      rw [daysInMonth_twelve]

theorem canonical_iterate_next {x : JSDate} (h : Canonical x) (k : Nat) :
    Canonical (nextDay^[k] x) := by
  induction k with
  | zero => exact h
  | succ n ih =>
    rw [Function.iterate_succ_apply']
    exact canonical_nextDay ih

theorem canonical_iterate_prev {x : JSDate} (h : Canonical x) (k : Nat) :
    Canonical (prevDay^[k] x) := by
  induction k with
  | zero => exact h
  | succ n ih =>
    rw [Function.iterate_succ_apply']
    exact canonical_prevDay ih

theorem canonical_mkDate (y m0 d : Int) : Canonical (mkDate y m0 d) := by
  have h0 : 0 ≤ m0 % 12 := Int.emod_nonneg m0 (by norm_num)
  have h1 : m0 % 12 < 12 := Int.emod_lt_of_pos m0 (by norm_num)
  have hstart : Canonical ⟨y + m0 / 12, (m0 % 12).toNat + 1, 1⟩ := by
    refine ⟨?_, ?_, le_refl 1, one_le_daysInMonth _ _⟩
    · show 1 ≤ (m0 % 12).toNat + 1
      omega
    · show (m0 % 12).toNat + 1 ≤ 12
      omega
  unfold mkDate
  split
  · exact canonical_iterate_next hstart _
  · exact canonical_iterate_prev hstart _

theorem nextDay_iterate_day (y : Int) (m : Nat) (k : Nat) (hk : k + 1 ≤ daysInMonth y m) :
    nextDay^[k] ⟨y, m, 1⟩ = ⟨y, m, k + 1⟩ := by
  induction k with
  | zero => rfl
  | succ n ih =>
    rw [Function.iterate_succ_apply', ih (by omega)]
    unfold nextDay
    rw [if_pos (show n + 1 < daysInMonth y m by omega)]

/-- The anti-rollover check of `parseDate` succeeds exactly on
calendar-valid triples: `new Date(y, m-1, d)` returns components equal
to what was passed in iff `1 ≤ m ≤ 12` and `1 ≤ d ≤ daysInMonth y m`. -/
theorem mkDate_eq_iff (y m d : Int) :
    ((mkDate y (m - 1) d).y = y ∧ ((mkDate y (m - 1) d).m : Int) = m ∧
      ((mkDate y (m - 1) d).d : Int) = d)
    ↔ validYMD y m d := by
  constructor
  · rintro ⟨hy, hm, hd⟩
    obtain ⟨c1, c2, c3, c4⟩ := canonical_mkDate y (m - 1) d
    refine ⟨by omega, by omega, by omega, ?_⟩
    have hmm : (mkDate y (m - 1) d).m = m.toNat := by omega
    rw [hy, hmm] at c4
    omega
  · rintro ⟨h1, h2, h3, h4⟩
    have hdiv : (m - 1) / 12 = 0 := by omega
    have hmod : (m - 1) % 12 = m - 1 := by omega
    unfold mkDate
    rw [if_pos (show (1 : Int) ≤ d by omega), hdiv, hmod]
    have hmn : (m - 1).toNat + 1 = m.toNat := by omega
    rw [add_zero, hmn, nextDay_iterate_day y m.toNat (d - 1).toNat (by omega)]
    refine ⟨rfl, ?_, ?_⟩
    · show ((m.toNat : Nat) : Int) = m
      omega
    · show (((d - 1).toNat + 1 : Nat) : Int) = d
      omega

theorem pickYMD_first (p1 p2 p3 : Int) (h : 1000 < p1) :
    pickYMD p1 p2 p3 = some (p1, p2, p3) := by
  rw [pickYMD, if_pos h]

theorem pickYMD_second (p1 p2 p3 : Int) (h1 : ¬ 1000 < p1) (h3 : 1000 < p3) :
    pickYMD p1 p2 p3 = some (p3, p2, p1) := by
  rw [pickYMD, if_neg h1, if_pos h3]

theorem validateYMD_valid (y m d : Int) (hy1 : 1000 < y) (hy2 : y < 10000)
    (hv : validYMD y m d) : validateYMD y m d = some ⟨y, m.toNat, d.toNat⟩ := by
  obtain ⟨h1, h2, h3, h4⟩ := hv
  obtain ⟨e1, e2, e3⟩ := (mkDate_eq_iff y m d).mpr ⟨h1, h2, h3, h4⟩
  rw [validateYMD, if_pos ⟨by omega, by omega, by omega⟩]
  have hrange : jsDateRangeOk (mkDate y (m - 1) d) = true := by
    rw [jsDateRangeOk]
    exact decide_eq_true (by omega)
  rw [if_pos ⟨hrange, e1, e2, e3⟩]
  rcases hmk : mkDate y (m - 1) d with ⟨my, mm, md⟩
  rw [hmk] at e1 e2 e3
  have e1' : my = y := e1
  have e2' : (mm : Int) = m := e2
  have e3' : (md : Int) = d := e3
  simp only [Option.some.injEq, JSDate.mk.injEq]
  exact ⟨e1', by omega, by omega⟩

theorem validateYMD_invalid (y m d : Int) (hv : ¬ validYMD y m d) :
    validateYMD y m d = none := by
  rw [validateYMD]
  by_cases h0 : y ≠ 0 ∧ m ≠ 0 ∧ d ≠ 0
  · rw [if_pos h0,
      if_neg (fun hc => hv ((mkDate_eq_iff y m d).mp ⟨hc.2.1, hc.2.2.1, hc.2.2.2⟩))]
  · rw [if_neg h0]

theorem parseDateManual_found (t : String) (p1 p2 p3 : Int)
    (hsplit : splitDateComponents t = some (p1, p2, p3)) :
    parseDateManual t =
      (match pickYMD p1 p2 p3 with
        | none => none
        | some (y, m, d) => validateYMD y m d) := by
  rw [parseDateManual, hsplit]

theorem parseDate_of_manual_some (fb : String → Option JSDate) (s : String) (d : JSDate)
    (ht : ¬ s.trim = "") (h : parseDateManual s.trim = some d) :
    parseDate fb s = some d := by
  rw [parseDate, if_neg ht, h]

theorem parseDate_of_manual_none (fb : String → Option JSDate) (s : String)
    (ht : ¬ s.trim = "") (h : parseDateManual s.trim = none) (hfb : fb s.trim = none) :
    parseDate fb s = none := by
  rw [parseDate, if_neg ht, h, hfb]

/-- Claim C9: on input strings whose trimmed form splits into three
numeric components, `parseDate` is disambiguated by which component
exceeds 1000 (the 4-digit year): it accepts `YYYY-MM-DD` / `YYYY/MM/DD`
(first component the year) and `DD-MM-YYYY` / `DD/MM/YYYY` (third
component the year) exactly on calendar-valid dates, returning the
exact components with no rollover; on calendar-invalid components such
as February 30 the manual parser rejects and the result is `null`
whenever the host's generic `new Date(string)` fallback (the abstract
`fb`, outside this repository) also finds no date in the string. -/
theorem parseDate_correct (fb : String → Option JSDate) (s : String) (p1 p2 p3 : Int)
    (hsplit : splitDateComponents s.trim = some (p1, p2, p3)) :
    (1000 < p1 → p1 < 10000 →
      (validYMD p1 p2 p3 → parseDate fb s = some ⟨p1, p2.toNat, p3.toNat⟩)
      ∧ (¬ validYMD p1 p2 p3 → fb s.trim = none → parseDate fb s = none))
    ∧ (¬ 1000 < p1 → 1000 < p3 → p3 < 10000 →
      (validYMD p3 p2 p1 → parseDate fb s = some ⟨p3, p2.toNat, p1.toNat⟩)
      ∧ (¬ validYMD p3 p2 p1 → fb s.trim = none → parseDate fb s = none)) := by
  have htrim : ¬ s.trim = "" := by
    intro h
    rw [h] at hsplit
    have hempty : splitDateComponents "" = none := by with_unfolding_all decide
    rw [hempty] at hsplit
    exact Option.noConfusion hsplit
  constructor
  · intro hy1 hy2
    have hpick := pickYMD_first p1 p2 p3 hy1
    constructor
    · intro hv
      refine parseDate_of_manual_some fb s _ htrim ?_
      rw [parseDateManual_found s.trim p1 p2 p3 hsplit, hpick]
      exact validateYMD_valid p1 p2 p3 hy1 hy2 hv
    · intro hv hfb
      refine parseDate_of_manual_none fb s htrim ?_ hfb
      rw [parseDateManual_found s.trim p1 p2 p3 hsplit, hpick]
      exact validateYMD_invalid p1 p2 p3 hv
  · intro hy1 hy3 hy4
    have hpick := pickYMD_second p1 p2 p3 hy1 hy3
    constructor
    · intro hv
      refine parseDate_of_manual_some fb s _ htrim ?_
      rw [parseDateManual_found s.trim p1 p2 p3 hsplit, hpick]
      exact validateYMD_valid p3 p2 p1 hy3 hy4 hv
    · intro hv hfb
      refine parseDate_of_manual_none fb s htrim ?_ hfb
      rw [parseDateManual_found s.trim p1 p2 p3 hsplit, hpick]
      exact validateYMD_invalid p3 p2 p1 hv

/-- Instantiation on concrete strings: `"15/02/2024"` (DD/MM/YYYY)
parses to 15 February 2024, and the calendar-invalid `"2024-02-30"` is
rejected (with a host fallback that finds no date). -/
theorem parseDate_correct_witness :
    parseDate (fun _ => none) "15/02/2024" = some ⟨2024, 2, 15⟩
    ∧ parseDate (fun _ => none) "2024-02-30" = none :=
  ⟨((parseDate_correct (fun _ => none) "15/02/2024" 15 2 2024
        (by with_unfolding_all decide)).2
      (by with_unfolding_all decide) (by with_unfolding_all decide)
      (by with_unfolding_all decide)).1 (by with_unfolding_all decide),
    ((parseDate_correct (fun _ => none) "2024-02-30" 2024 2 30
        (by with_unfolding_all decide)).1
      (by with_unfolding_all decide) (by with_unfolding_all decide)).2
      (by with_unfolding_all decide) rfl⟩

end GnexGym
